import Mathlib

/-!
# Shard-distributor canary

A shallow embedding of the canary's ownership-confirmation handler
(`canary/handler/ping_handler.go`), of the probe (`canary/pinger/pingAndLog.go`,
`canary/pinger/pinger.go`) and of the shard creator
(`canary/processorephemeral/shardcreator.go`) and of the ownership resolvers
(`client/spectatorclient/client.go`), followed by theorems about them.

Conventions of the embedding:

* a Go `error` is `Option GoError` (`none` is `nil`); a Go pointer that may be `nil`
  is an `Option`;
* a Go `map[string]V` is an association list read by its first binding;
* a `*zap.Logger` is the list of the entries written to it, oldest first; every
  level is recorded;
* an object reached through a pointer and changed by a call (the logger, the mocked
  canary client) is passed in and returned;
* the `context.Context` handed to a probe and wall-clock deadlines are left out: they
  carry no data that the probe branches on;
* the lifecycle code (`Start`, `Stop` and the loops) keeps a context by the way it was
  made and runs a blocking call against a schedule of the other goroutines.
-/

namespace Canary

/-! ## Go runtime values -/

/-- A non-nil Go `error`, identified by its message. -/
structure GoError where
  msg : String
  deriving DecidableEq, Repr

/-- A Go `map[string]V`: the bindings, read by the first one that has the key. -/
structure GoMap (V : Type) where
  entries : List (String × V)

namespace GoMap

/-- The map made by `make(map[string]V)`. -/
def empty {V : Type} : GoMap V := ⟨[]⟩

/-- The two-valued read `v, found := m[k]`. -/
def get {V : Type} (m : GoMap V) (k : String) : Option V :=
  m.entries.lookup k

/-- The assignment `m[k] = v`: the binding of `k`, if any, is replaced. -/
def set {V : Type} (m : GoMap V) (k : String) (v : V) : GoMap V :=
  ⟨(k, v) :: m.entries.filter (fun p => p.1 != k)⟩

end GoMap

/-! ## zap logging -/

/-- Levels of `zap` used by the canary. -/
inductive Level where
  | info
  | warn
  | error
  deriving DecidableEq, Repr

/-- The value of a structured log field. -/
inductive FieldValue where
  | str (s : String)
  | bool (b : Bool)
  | int (i : Int)
  | err (e : GoError)
  deriving DecidableEq, Repr

/-- A structured log field, `zap.Field`. -/
structure Field where
  key : String
  value : FieldValue
  deriving DecidableEq, Repr

/-- The field built by `zap.String(key, val)`. -/
def zapString (key val : String) : Field := ⟨key, .str val⟩

/-- The field built by `zap.Bool(key, val)`. -/
def zapBool (key : String) (val : Bool) : Field := ⟨key, .bool val⟩

/-- The field built by `zap.Int(key, val)`. -/
def zapInt (key : String) (val : Int) : Field := ⟨key, .int val⟩

/-- The field built by `zap.Error(err)`; its key is `error`. -/
def zapError (e : GoError) : Field := ⟨"error", .err e⟩

/-- One entry written to a logger. -/
structure LogEntry where
  level : Level
  msg : String
  fields : List Field
  deriving DecidableEq, Repr

/-- A `*zap.Logger`, as the entries written to it so far, oldest first. -/
abbrev Logger := List LogEntry

/-- The call `logger.Info(msg, fields...)`. -/
def Logger.Info (l : Logger) (msg : String) (fields : List Field) : Logger :=
  l ++ [⟨.info, msg, fields⟩]

/-- The call `logger.Warn(msg, fields...)`. -/
def Logger.Warn (l : Logger) (msg : String) (fields : List Field) : Logger :=
  l ++ [⟨.warn, msg, fields⟩]

/-- The call `logger.Error(msg, fields...)`. -/
def Logger.Error (l : Logger) (msg : String) (fields : List Field) : Logger :=
  l ++ [⟨.error, msg, fields⟩]

/-! ## Wire contract of the verification RPC (`sharddistributorv1`) -/

/-- The message `PingRequest`. -/
structure PingRequest where
  ShardKey : String
  Namespace : String
  deriving DecidableEq, Repr

/-- The message `PingResponse`. -/
structure PingResponse where
  ExecutorId : String
  OwnsShard : Bool
  ShardKey : String
  deriving DecidableEq, Repr

/-- Generated accessor `(*PingRequest).GetShardKey`: the empty string on a nil request. -/
def PingRequest.GetShardKey : Option PingRequest → String
  | some r => r.ShardKey
  | none => ""

/-- Generated accessor `(*PingRequest).GetNamespace`: the empty string on a nil request. -/
def PingRequest.GetNamespace : Option PingRequest → String
  | some r => r.Namespace
  | none => ""

/-- Generated accessor `(*PingResponse).GetOwnsShard`: `false` on a nil response. -/
def PingResponse.GetOwnsShard : Option PingResponse → Bool
  | some r => r.OwnsShard
  | none => false

/-- Generated accessor `(*PingResponse).GetExecutorId`: the empty string on a nil response. -/
def PingResponse.GetExecutorId : Option PingResponse → String
  | some r => r.ExecutorId
  | none => ""

/-! ## Ownership-confirmation handler (`canary/handler/ping_handler.go`) -/

/-- The part of `executorclient.Executor[T]` that the handler uses. `GetShardProcess`
gives the error of the local lookup only: the handler discards the processor. -/
structure Executor where
  GetNamespace : String
  GetShardProcess : String → Option GoError
  GetMetadata : GoMap String

namespace handler

/-- The struct `PingHandler`. -/
structure PingHandler where
  logger : Logger
  executorsFixed : GoMap Executor
  executorsEphemeral : GoMap Executor

/-- The struct `Params` of the handler package. -/
structure Params where
  Logger : Logger
  ExecutorsFixed : List Executor
  ExecutorsEphemeral : List Executor

/-- The loop `for _, executor := range xs { m[executor.GetNamespace()] = executor }`. -/
def registerAll (xs : List Executor) : GoMap Executor :=
  xs.foldl (fun m executor => m.set executor.GetNamespace executor) GoMap.empty

/-- The constructor `NewPingHandler`. -/
def NewPingHandler (params : Params) : PingHandler :=
  let executorsFixed := registerAll params.ExecutorsFixed
  let executorsEphemeral := registerAll params.ExecutorsEphemeral
  { logger := params.Logger
    executorsFixed := executorsFixed
    executorsEphemeral := executorsEphemeral }

/-- The function `getExecutorID`. -/
def getExecutorID (metadata : GoMap String) : String :=
  match metadata.get "grpc_address" with
  | some addr => if addr != "" then addr else ""
  | none => ""

/-- The function `checkOwnerShipAndLog`: the response and the handler after the
`Responding to ping` entry has been logged. -/
def checkOwnerShipAndLog (executor : Executor) (request : Option PingRequest)
    (h : PingHandler) : PingResponse × PingHandler :=
  let err := executor.GetShardProcess (PingRequest.GetShardKey request)
  let ownshard := err.isNone
  let metadata := executor.GetMetadata
  let executorID := getExecutorID metadata
  let response : PingResponse :=
    { ExecutorId := executorID
      OwnsShard := ownshard
      ShardKey := PingRequest.GetShardKey request }
  let logger := h.logger.Info "Responding to ping"
    [zapString "shard_key" (PingRequest.GetShardKey request),
     zapBool "owns_shard" ownshard,
     zapString "executor_id" executorID]
  (response, { h with logger := logger })

/-- What a call of `Ping` leaves behind: the returned pair `(*PingResponse, error)`
and the handler afterwards. -/
structure PingResult where
  response : Option PingResponse
  err : Option GoError
  handler : PingHandler

/-- The method `PingHandler.Ping`. -/
def Ping (h : PingHandler) (request : Option PingRequest) : PingResult :=
  let logger := h.logger.Info "Received ping request"
    [zapString "shard_key" (PingRequest.GetShardKey request),
     zapString "namespace" (PingRequest.GetNamespace request)]
  let h := { h with logger := logger }
  let namespace_ := PingRequest.GetNamespace request
  match h.executorsFixed.get namespace_ with
  | some executor =>
    let r := checkOwnerShipAndLog executor request h
    { response := some r.1, err := none, handler := r.2 }
  | none =>
    match h.executorsEphemeral.get namespace_ with
    | some executor =>
      let r := checkOwnerShipAndLog executor request h
      { response := some r.1, err := none, handler := r.2 }
    | none =>
      let logger := h.logger.Warn "Namespace executor not found"
        [zapString "namespace" namespace_]
      { response := some { ExecutorId := "", OwnsShard := false,
                           ShardKey := PingRequest.GetShardKey request }
        err := none
        handler := { h with logger := logger } }

end handler

/-! ## The probe (`canary/pinger/pingAndLog.go`) -/

/-- The call options `yarpc.WithShardKey` and `yarpc.WithHeader`. -/
inductive CallOption where
  | WithShardKey (shardKey : String)
  | WithHeader (key value : String)
  deriving DecidableEq, Repr

/-- One call received by the canary client: the request and the call options. -/
structure PingCall where
  request : Option PingRequest
  opts : List CallOption
  deriving DecidableEq, Repr

/-- The client `ShardDistributorExecutorCanaryAPIYARPCClient`, as a mock: it keeps
the calls it has received, oldest first, and answers each call from the calls received
before it and the call itself. The answer is the Go pair `(*PingResponse, error)`. -/
structure CanaryClient where
  calls : List PingCall
  respond : List PingCall → PingCall → Option PingResponse × Option GoError

/-- The method `Ping` of the canary client: the answer and the client afterwards. -/
def CanaryClient.Ping (c : CanaryClient) (request : Option PingRequest)
    (opts : List CallOption) :
    (Option PingResponse × Option GoError) × CanaryClient :=
  let call : PingCall := ⟨request, opts⟩
  (c.respond c.calls call, { c with calls := c.calls ++ [call] })

namespace pinger

/-- The function `PingShard`, for a context that is not nil: the canary client and the
logger after the probe. Its first call, `context.WithTimeout(ctx, pingTimeout)`, panics
on a nil context; the context carries nothing else that the function branches on and
is left out, and the one caller that may hold a nil context, `pingRandomShard`, checks
it before the call. The header name `spectatorclient.NamespaceHeader` is a constant
declared outside the files at hand and is taken as the parameter `NamespaceHeader`. -/
def PingShard (NamespaceHeader : String) (canaryClient : CanaryClient) (logger : Logger)
    (namespace_ shardKey : String) : CanaryClient × Logger :=
  let request : PingRequest :=
    { ShardKey := shardKey
      Namespace := namespace_ }
  let r := canaryClient.Ping (some request)
    [CallOption.WithShardKey shardKey, CallOption.WithHeader NamespaceHeader namespace_]
  let response := r.1.1
  let canaryClient := r.2
  match r.1.2 with
  | some err =>
    (canaryClient, logger.Error "Failed to ping shard"
      [zapString "namespace" namespace_, zapString "shard_key" shardKey, zapError err])
  | none =>
    if !PingResponse.GetOwnsShard response then
      (canaryClient, logger.Warn "Executor does not own shard"
        [zapString "namespace" namespace_, zapString "shard_key" shardKey,
         zapString "executor_id" (PingResponse.GetExecutorId response)])
    else
      (canaryClient, logger.Info "Successfully pinged shard owner"
        [zapString "namespace" namespace_, zapString "shard_key" shardKey,
         zapString "executor_id" (PingResponse.GetExecutorId response)])

end pinger

/-! ## Contexts and blocking calls

The lifecycle code runs in more than one goroutine. It is embedded as steps on the
state of the process: a goroutine that sits in a `select` takes one case at a time, and
a call that blocks (`WaitGroup.Wait`) is run against a schedule, the list of the cases
that the other goroutines take while the caller waits. -/

/-- A `context.Context`, by the way it was made. `WithCancel` carries the number of
its cancel function; a context with a deadline is one whose cancel function is called
by the runtime. -/
inductive Context where
  | Background
  | WithCancel (id : Nat) (parent : Context)
  | WithoutCancel (parent : Context)
  deriving DecidableEq, Repr

/-- The numbers of the cancel functions that a context listens to by its making,
`WithoutCancel` left aside: its own and those of its ancestors. -/
def Context.ids : Context → List Nat
  | .Background => []
  | .WithCancel id parent => id :: parent.ids
  | .WithoutCancel parent => parent.ids

/-- The contexts of the process: how many cancel functions have been handed out, and
which of them have been called. -/
structure Contexts where
  next : Nat
  cancelled : List Nat

/-- Whether the channel `ctx.Done()` is closed. A context made by `WithCancel` is
done once its cancel function has been called or its parent is done; `Background` and
a context made by `WithoutCancel` are never done. -/
def Context.isDone (cs : Contexts) : Context → Bool
  | .Background => false
  | .WithCancel id parent => cs.cancelled.contains id || parent.isDone cs
  | .WithoutCancel _ => false

/-- The call `context.WithCancel(parent)`: the new context, its cancel function, and
the contexts afterwards. -/
def Contexts.WithCancel (cs : Contexts) (parent : Context) :
    (Context × Nat) × Contexts :=
  ((Context.WithCancel cs.next parent, cs.next), { cs with next := cs.next + 1 })

/-- A call of the cancel function number `id`. -/
def Contexts.cancel (cs : Contexts) (id : Nat) : Contexts :=
  { cs with cancelled := id :: cs.cancelled }

/-- How a call that may block ends against a schedule: it has returned, it is still
blocked when the schedule runs out, or the process has panicked. -/
inductive Outcome (σ : Type) where
  | returned (after : σ)
  | blocked (now : σ)
  | panicked (msg : String)

namespace pinger

/-! ## The prober (`canary/pinger/pinger.go`) -/

/-- The struct `Pinger`, without its `timeSource`. The fields `ctx` and `cancel` are
nil and the counter of the wait group `wg` is zero until `Start` sets them, as in a
value made by `NewPinger`. -/
structure Pinger where
  logger : Logger
  canaryClient : CanaryClient
  namespace_ : String
  numShards : Int
  ctx : Option Context := none
  cancel : Option Nat := none
  wg : Nat := 0

/-- The struct `Params` of the pinger package. -/
structure Params where
  Logger : Logger
  CanaryClient : CanaryClient

/-- The constructor `NewPinger`. -/
def NewPinger (params : Params) (namespace_ : String) (numShards : Int) : Pinger :=
  { logger := params.Logger
    canaryClient := params.CanaryClient
    namespace_ := namespace_
    numShards := numShards }

/-- The library call `rand.Intn(n)` of `math/rand`, by its documented contract: it
panics when `n <= 0` and otherwise returns a number of `[0, n)`. The number is fixed by
the raw value `draw` taken from the random source; every number of `[0, n)` is the
result of some draw. -/
def Intn (draw : Nat) (n : Int) : Except String Int :=
  if n ≤ 0 then .error "invalid argument to Intn" else .ok ((draw : Int) % n)

/-- The call `fmt.Sprintf("%d", n)`: the decimal text of `n`. -/
def Sprintf_d (n : Int) : String := toString n

/-- The method `Pinger.pingRandomShard`, given the raw value `draw` of the random
source: a panic, or the pinger after the probe. The method hands `p.ctx` to
`PingShard`, which panics in `context.WithTimeout` when that context is nil, as it is
in a pinger made by `NewPinger` until `Start` sets it; the panic comes after
`rand.Intn` and before the call of the canary client. -/
def pingRandomShard (NamespaceHeader : String) (p : Pinger) (draw : Nat) :
    Except String Pinger :=
  match Intn draw p.numShards with
  | .error e => .error e
  | .ok shardNum =>
    let shardKey := Sprintf_d shardNum
    match p.ctx with
    | none => .error "cannot create context from nil parent"
    | some _ =>
      let r := PingShard NamespaceHeader p.canaryClient p.logger p.namespace_ shardKey
      .ok { p with canaryClient := r.1, logger := r.2 }

/-- The pinger together with the contexts of the process and the number of goroutines
that run `pingLoop`. -/
structure Process where
  p : Pinger
  contexts : Contexts
  loops : Nat

/-- The method `Pinger.Start`. -/
def Start (proc : Process) (ctx : Context) : Process :=
  let logger := proc.p.logger.Info "Starting canary pinger"
    [zapString "namespace" proc.p.namespace_, zapInt "num_shards" proc.p.numShards]
  let r := proc.contexts.WithCancel (Context.WithoutCancel ctx)
  { p := { proc.p with logger := logger, ctx := some r.1.1, cancel := some r.1.2,
                       wg := proc.p.wg + 1 }
    contexts := r.2
    loops := proc.loops + 1 }

/-- The cases of the `select` of `Pinger.pingLoop`; the tick carries the raw value
that the random source gives to `pingRandomShard`. -/
inductive SelectCase where
  | ctxDone
  | ticker (draw : Nat)
  deriving DecidableEq, Repr

/-- One pass of the `for`/`select` of `Pinger.pingLoop` in a goroutine that runs it,
with the case that the `select` takes. Without such a goroutine nothing happens. The
case `<-p.ctx.Done()` is ready only once the context is done, and until then the
goroutine stays in the `select`; when it is taken the loop logs, returns, and the
deferred `p.wg.Done()` runs. The case of the ticker calls `pingRandomShard`. -/
def pingLoopStep (NamespaceHeader : String) (proc : Process) (c : SelectCase) :
    Except String Process :=
  if proc.loops = 0 then .ok proc
  else
    match proc.p.ctx with
    | none => .error "invalid memory address or nil pointer dereference"
    | some ctx =>
      match c with
      | .ctxDone =>
        if ctx.isDone proc.contexts then
          let logger := proc.p.logger.Info "Pinger context done, stopping" []
          if proc.p.wg = 0 then .error "sync: negative WaitGroup counter"
          else
            .ok { proc with p := { proc.p with logger := logger, wg := proc.p.wg - 1 }
                            loops := proc.loops - 1 }
        else .ok proc
      | .ticker draw =>
        match pingRandomShard NamespaceHeader proc.p draw with
        | .error e => .error e
        | .ok p => .ok { proc with p := p }

/-- The call `p.wg.Wait()` against a schedule: it returns once the counter is zero,
and until then the goroutines of `pingLoop` take the cases of the schedule. -/
def Wait (NamespaceHeader : String) : List SelectCase → Process → Outcome Process
  | [], proc => if proc.p.wg = 0 then .returned proc else .blocked proc
  | c :: rest, proc =>
    if proc.p.wg = 0 then .returned proc
    else
      match pingLoopStep NamespaceHeader proc c with
      | .error e => .panicked e
      | .ok next => Wait NamespaceHeader rest next

/-- The method `Pinger.Stop`, against a schedule. -/
def Stop (NamespaceHeader : String) (proc : Process) (schedule : List SelectCase) :
    Outcome Process :=
  let proc :=
    match proc.p.cancel with
    | some id => { proc with contexts := proc.contexts.cancel id }
    | none => proc
  Wait NamespaceHeader schedule proc

/-- What happens around a started pinger before it is stopped: some cancel function
is called, or a goroutine of `pingLoop` takes a case of its `select`. -/
inductive Event where
  | cancel (id : Nat)
  | loop (c : SelectCase)
  deriving DecidableEq, Repr

/-- The process after a list of events, oldest first, or the panic that ends it. -/
def run (NamespaceHeader : String) : List Event → Process → Except String Process
  | [], proc => .ok proc
  | .cancel id :: rest, proc =>
    run NamespaceHeader rest { proc with contexts := proc.contexts.cancel id }
  | .loop c :: rest, proc =>
    match pingLoopStep NamespaceHeader proc c with
    | .error e => .error e
    | .ok next => run NamespaceHeader rest next

end pinger

/-! ## The shard creator (`canary/processorephemeral/shardcreator.go`) -/

/-- The type `uuid.UUID` of `github.com/google/uuid`: sixteen bytes. -/
structure UUID where
  bytes : Fin 16 → Fin 256

/-- A lower-case hexadecimal digit. -/
def hexDigit (n : Nat) : Char :=
  "0123456789abcdef".toList.getD n '0'

/-- The two hexadecimal digits of byte `i` of a UUID. -/
def UUID.hex (u : UUID) (i : Fin 16) : List Char :=
  [hexDigit ((u.bytes i).val / 16), hexDigit ((u.bytes i).val % 16)]

/-- The method `UUID.String`: the form `xxxxxxxx-xxxx-xxxx-xxxx-xxxxxxxxxxxx`. -/
def UUID.String (u : UUID) : String :=
  String.mk
    (u.hex 0 ++ u.hex 1 ++ u.hex 2 ++ u.hex 3 ++ '-' ::
     (u.hex 4 ++ u.hex 5 ++ '-' ::
     (u.hex 6 ++ u.hex 7 ++ '-' ::
     (u.hex 8 ++ u.hex 9 ++ '-' ::
     (u.hex 10 ++ u.hex 11 ++ u.hex 12 ++ u.hex 13 ++ u.hex 14 ++ u.hex 15)))))

/-- The random source behind `uuid.New()`: the value of every draw, and the number of
draws made so far. Any sixteen bytes may be drawn, which covers the version-4 values
that the library returns. -/
structure UUIDSource where
  draws : Nat → UUID
  used : Nat

/-- The library call `uuid.New()`: the next draw, and the source afterwards. -/
def UUIDSource.New (src : UUIDSource) : UUID × UUIDSource :=
  (src.draws src.used, { src with used := src.used + 1 })

namespace processorephemeral

/-- The struct `ShardCreator`, without its `timeSource`. The channel `stopChan` is
kept by whether it has been closed, and the wait group `goRoutineWg` by its counter; a
value made by `NewShardCreator` has an open channel and a counter of zero. -/
structure ShardCreator where
  logger : Logger
  canaryClient : CanaryClient
  namespaces : List String
  stopChanClosed : Bool := false
  goRoutineWg : Nat := 0

/-- The struct `ShardCreatorParams`. -/
structure ShardCreatorParams where
  Logger : Logger
  CanaryClient : CanaryClient

/-- The constructor `NewShardCreator`. -/
def NewShardCreator (params : ShardCreatorParams) (namespaces : List String) :
    ShardCreator :=
  { logger := params.Logger
    canaryClient := params.CanaryClient
    namespaces := namespaces }

/-- The loop `for _, namespace := range s.namespaces` of `ShardCreator.process`, run
over the namespaces still to visit: the shard creator and the UUID source afterwards. -/
def processNamespaces (NamespaceHeader : String) :
    ShardCreator → UUIDSource → List String → ShardCreator × UUIDSource
  | s, src, [] => (s, src)
  | s, src, namespace_ :: rest =>
    let u := src.New
    let shardKey := u.1.String
    let logger := s.logger.Info "Creating shard"
      [zapString "shardKey" shardKey, zapString "namespace" namespace_]
    let r := pinger.PingShard NamespaceHeader s.canaryClient logger namespace_ shardKey
    processNamespaces NamespaceHeader { s with canaryClient := r.1, logger := r.2 } u.2 rest

/-- The body of `case <-ticker.Chan():` in `ShardCreator.process`: one tick. -/
def processTick (NamespaceHeader : String) (s : ShardCreator) (src : UUIDSource) :
    ShardCreator × UUIDSource :=
  processNamespaces NamespaceHeader s src s.namespaces

/-- The shard creator together with the UUID source and the number of goroutines that
run `process`. -/
structure Process where
  s : ShardCreator
  uuids : UUIDSource
  loops : Nat

/-- The method `ShardCreator.Start`. -/
def Start (proc : Process) : Process :=
  { proc with
    s := { proc.s with goRoutineWg := proc.s.goRoutineWg + 1
                       logger := proc.s.logger.Info "Shard creator started" [] }
    loops := proc.loops + 1 }

/-- The cases of the `select` of `ShardCreator.process`. -/
inductive SelectCase where
  | ctxDone
  | stopChan
  | ticker
  deriving DecidableEq, Repr

/-- One pass of the `for`/`select` of `ShardCreator.process` in a goroutine that runs
it, with the case that the `select` takes. Without such a goroutine nothing happens.
The context is `context.Background()`, so the case `<-ctx.Done()` is never ready. The
case `<-s.stopChan` is ready only once the channel is closed; when it is taken the
loop returns and the deferred `s.goRoutineWg.Done()` runs. The case of the ticker runs
the body of a tick. -/
def processStep (NamespaceHeader : String) (proc : Process) (c : SelectCase) :
    Except String Process :=
  if proc.loops = 0 then .ok proc
  else
    match c with
    | .ctxDone => .ok proc
    | .stopChan =>
      if proc.s.stopChanClosed then
        if proc.s.goRoutineWg = 0 then .error "sync: negative WaitGroup counter"
        else
          .ok { proc with s := { proc.s with goRoutineWg := proc.s.goRoutineWg - 1 }
                          loops := proc.loops - 1 }
      else .ok proc
    | .ticker =>
      let r := processTick NamespaceHeader proc.s proc.uuids
      .ok { proc with s := r.1, uuids := r.2 }

/-- The call `s.goRoutineWg.Wait()` against a schedule: it returns once the counter
is zero, and until then the goroutines of `process` take the cases of the schedule. -/
def Wait (NamespaceHeader : String) : List SelectCase → Process → Outcome Process
  | [], proc => if proc.s.goRoutineWg = 0 then .returned proc else .blocked proc
  | c :: rest, proc =>
    if proc.s.goRoutineWg = 0 then .returned proc
    else
      match processStep NamespaceHeader proc c with
      | .error e => .panicked e
      | .ok next => Wait NamespaceHeader rest next

/-- The method `ShardCreator.Stop`, against a schedule. Closing a channel that is
closed already is a panic of the Go runtime. -/
def Stop (NamespaceHeader : String) (proc : Process) (schedule : List SelectCase) :
    Outcome Process :=
  if proc.s.stopChanClosed then .panicked "close of closed channel"
  else
    match Wait NamespaceHeader schedule
        { proc with s := { proc.s with stopChanClosed := true } } with
    | .returned after =>
      .returned { after with
        s := { after.s with logger := after.s.logger.Info "Shard creator stopped" [] } }
    | .blocked now => .blocked now
    | .panicked msg => .panicked msg

end processorephemeral

/-! ## The ownership resolvers (`client/spectatorclient/client.go`) -/

/-- The bindings that `for k, v := range m` visits: each key once, with the value that a
read of the key gives. Go leaves the order of the visit open; the order of the list
stands for the order of one run, so a statement about every map covers every order. -/
def GoMap.rangeFrom {V : Type} : List (String × V) → List String → List (String × V)
  | [], _ => []
  | (k, v) :: rest, seen =>
    if seen.contains k then GoMap.rangeFrom rest seen
    else (k, v) :: GoMap.rangeFrom rest (k :: seen)

/-- The bindings visited by a `range` over the whole map. -/
def GoMap.range {V : Type} (m : GoMap V) : List (String × V) :=
  GoMap.rangeFrom m.entries []

namespace spectatorclient

/-- The type `ShardOwner`, declared outside the files at hand, by the executor it
names. -/
structure ShardOwner where
  ExecutorID : String
  deriving DecidableEq, Repr

/-- The interface `Spectator`, by what its methods return: the error of `Start`, and
the pair `(*ShardOwner, error)` of `GetShardOwner`. `Stop` returns nothing. -/
structure Spectator where
  Start : Option GoError
  GetShardOwner : String → Option ShardOwner × Option GoError

/-- The struct `Spectators`. -/
structure Spectators where
  spectators : GoMap Spectator

/-- The method `Spectators.ForNamespace`: the Go pair `(Spectator, error)`. -/
def Spectators.ForNamespace (s : Spectators) (namespace_ : String) :
    Option Spectator × Option GoError :=
  match s.spectators.get namespace_ with
  | none => (none, some ⟨"spectator not found for namespace " ++ namespace_⟩)
  | some spectator => (some spectator, none)

/-- The loop of `Spectators.Start` over the bindings still to visit. `started` lists
the namespaces whose spectator has had its `Start` called so far, oldest first. -/
def Spectators.startFrom :
    List (String × Spectator) → List String → Option GoError × List String
  | [], started => (none, started)
  | (namespace_, spectator) :: rest, started =>
    match spectator.Start with
    | some err =>
      (some ⟨"start spectator for namespace " ++ namespace_ ++ ": " ++ err.msg⟩,
        started ++ [namespace_])
    | none => Spectators.startFrom rest (started ++ [namespace_])

/-- The method `Spectators.Start`: the returned error, and the namespaces whose
spectator has had its `Start` called, in the order of the calls. -/
def Spectators.Start (s : Spectators) : Option GoError × List String :=
  Spectators.startFrom s.spectators.range []

/-- The loop of `NewSpectators` over the namespaces still to visit. The constructor
`NewSpectatorWithNamespace` reads configuration declared outside the files at hand and
is taken as the parameter `create`; it returns either a spectator or an error. -/
def newSpectatorsFrom (create : String → Except GoError Spectator) :
    List String → GoMap Spectator → Option Spectators × Option GoError
  | [], spectators => (some ⟨spectators⟩, none)
  | namespace_ :: rest, spectators =>
    match create namespace_ with
    | .error err =>
      (none, some ⟨"create spectator for namespace " ++ namespace_ ++ ": " ++ err.msg⟩)
    | .ok spectator =>
      newSpectatorsFrom create rest (spectators.set namespace_ spectator)

/-- The constructor `NewSpectators`, over the namespaces of `params.Config.Namespaces`. -/
def NewSpectators (create : String → Except GoError Spectator)
    (namespaces : List String) : Option Spectators × Option GoError :=
  newSpectatorsFrom create namespaces GoMap.empty

/-- The constructors and constants that `createShardDistributorClient` puts together
and that are declared outside the files at hand: the wrappers of `client/wrappers/grpc`,
`client/wrappers/timeout` and `client/wrappers/retryable`, the metered wrapper of this
package, the default timeout, and the retry policy and error classifier of `common`. -/
structure ClientLayers where
  YarpcClient : Type
  Scope : Type
  Client : Type
  Timeout : Type
  RetryPolicy : Type
  IsRetryable : Type
  grpcNewShardDistributorClient : YarpcClient → Client
  timeoutNewShardDistributorClient : Client → Timeout → Client
  ShardDistributorDefaultTimeout : Timeout
  NewMeteredShardDistributorClient : Client → Scope → Client
  retryableNewShardDistributorClient : Client → RetryPolicy → IsRetryable → Client
  CreateShardDistributorServiceRetryPolicy : RetryPolicy
  IsServiceTransientError : IsRetryable

/-- The function `createShardDistributorClient`: the Go pair `(Client, error)`. -/
def createShardDistributorClient (L : ClientLayers) (yarpcClient : L.YarpcClient)
    (metricsScope : Option L.Scope) : L.Client × Option GoError :=
  let client := L.grpcNewShardDistributorClient yarpcClient
  let client := L.timeoutNewShardDistributorClient client L.ShardDistributorDefaultTimeout
  let client :=
    match metricsScope with
    | some scope => L.NewMeteredShardDistributorClient client scope
    | none => client
  let client := L.retryableNewShardDistributorClient client
    L.CreateShardDistributorServiceRetryPolicy L.IsServiceTransientError
  (client, none)

end spectatorclient

/-! ## Fixtures

The executors of `TestPingHandler_Ping`, and a handler built from them. -/

/-- Executor of namespace `ns1` at `127.0.0.1:7953` that has a processor for `shard-1`
only. -/
def execNs1 : Executor :=
  { GetNamespace := "ns1"
    GetShardProcess := fun k => if k = "shard-1" then none else some ⟨"not found"⟩
    GetMetadata := ⟨[("grpc_address", "127.0.0.1:7953")]⟩ }

/-- Ephemeral executor of namespace `ns2` at `127.0.0.1:7955` that has a processor
for `shard-3` only. -/
def execNs2 : Executor :=
  { GetNamespace := "ns2"
    GetShardProcess := fun k => if k = "shard-3" then none else some ⟨"not found"⟩
    GetMetadata := ⟨[("grpc_address", "127.0.0.1:7955")]⟩ }

/-- Handler with `ns1` registered as fixed and `ns2` as ephemeral. -/
def handlerNs1Ns2 : handler.PingHandler :=
  handler.NewPingHandler
    { Logger := [], ExecutorsFixed := [execNs1], ExecutorsEphemeral := [execNs2] }

/-- Ephemeral executor registered under the fixed namespace `ns1`, at
`127.0.0.1:7955`, that has a processor for every shard key. -/
def execNs1Ephemeral : Executor :=
  { GetNamespace := "ns1"
    GetShardProcess := fun _ => none
    GetMetadata := ⟨[("grpc_address", "127.0.0.1:7955")]⟩ }

/-- Handler with `ns1` registered both as fixed and as ephemeral. -/
def handlerOverlap : handler.PingHandler :=
  handler.NewPingHandler
    { Logger := [], ExecutorsFixed := [execNs1], ExecutorsEphemeral := [execNs1Ephemeral] }

/-- Executor of namespace `ns3` whose metadata has no `grpc_address` entry and that
has a processor for every shard key. -/
def execNoAddress : Executor :=
  { GetNamespace := "ns3"
    GetShardProcess := fun _ => none
    GetMetadata := ⟨[]⟩ }

/-- Handler with `ns3` registered as fixed. -/
def handlerNoAddress : handler.PingHandler :=
  handler.NewPingHandler
    { Logger := [], ExecutorsFixed := [execNoAddress], ExecutorsEphemeral := [] }

/-- Canary client that answers every call with a nil response and a nil error. -/
def clientNilAnswer : CanaryClient :=
  { calls := [], respond := fun _ _ => (none, none) }

/-- Canary client that answers its first call with `network error` and confirms
ownership on every later call. -/
def clientFailingFirst : CanaryClient :=
  { calls := []
    respond := fun earlier _ =>
      if earlier.isEmpty then (none, some ⟨"network error"⟩)
      else (some ⟨"127.0.0.1:7953", true, ""⟩, none) }

/-- The pinger of `TestPingerPingRandomShard` as `NewPinger` makes it: namespace
`test-ns`, ten shards, and a nil context. -/
def pingerTestNs : pinger.Pinger :=
  pinger.NewPinger { Logger := [], CanaryClient := clientFailingFirst } "test-ns" 10

/-- The pinger of `TestPingerPingRandomShard` after the test has set its context by
hand, `pinger.ctx = context.Background()`. -/
def pingerTestNsWithContext : pinger.Pinger :=
  { pingerTestNs with ctx := some Context.Background }

/-- A pinger over an empty pool whose context is set. -/
def pingerEmptyPool : pinger.Pinger :=
  { pinger.NewPinger { Logger := [], CanaryClient := clientNilAnswer } "test-ns" 0 with
    ctx := some Context.Background }

/-- UUID source whose draw number `n` has all its bytes equal to `n % 256`. -/
def sourceCounting : UUIDSource :=
  { draws := fun n => ⟨fun _ => ⟨n % 256, Nat.mod_lt n (by decide)⟩⟩, used := 0 }

/-- Shard creator for the namespaces `a` and `b`, whose client fails its first call. -/
def creatorTwoNamespaces : processorephemeral.ShardCreator :=
  processorephemeral.NewShardCreator
    { Logger := [], CanaryClient := clientFailingFirst } ["a", "b"]

/-- Spectator whose `Start` fails with `boom` and that knows no shard. -/
def spectatorFailing : spectatorclient.Spectator :=
  { Start := some ⟨"boom"⟩
    GetShardOwner := fun _ => (none, some ⟨"not found"⟩) }

/-- Spectator whose `Start` succeeds and that gives every shard to `127.0.0.1:7953`. -/
def spectatorHealthy : spectatorclient.Spectator :=
  { Start := none
    GetShardOwner := fun _ => (some ⟨"127.0.0.1:7953"⟩, none) }

/-- Spectators of the namespaces `a`, whose spectator fails to start, and `b`, in a run
that visits `a` first. -/
def spectatorsAB : spectatorclient.Spectators :=
  ⟨⟨[("a", spectatorFailing), ("b", spectatorHealthy)]⟩⟩

/-- Client layers as terms: each constructor records what it wraps. -/
inductive LayerTerm where
  | raw (yarpcClient : String)
  | timeout (inner : LayerTerm) (seconds : Nat)
  | metered (inner : LayerTerm) (scope : String)
  | retry (inner : LayerTerm) (policy : String) (isRetryable : String)
  deriving DecidableEq, Repr

/-- The client layers read as terms. -/
def layersAsTerms : spectatorclient.ClientLayers :=
  { YarpcClient := String
    Scope := String
    Client := LayerTerm
    Timeout := Nat
    RetryPolicy := String
    IsRetryable := String
    grpcNewShardDistributorClient := LayerTerm.raw
    timeoutNewShardDistributorClient := LayerTerm.timeout
    ShardDistributorDefaultTimeout := 10
    NewMeteredShardDistributorClient := LayerTerm.metered
    retryableNewShardDistributorClient := LayerTerm.retry
    CreateShardDistributorServiceRetryPolicy := "policy"
    IsServiceTransientError := "transient" }

/-- A parent context with the cancel function number `0`. -/
def parentContext : Context := Context.WithCancel 0 Context.Background

/-- The pinger of the test before `Start`, in a process that has handed out one
cancel function, that of the parent context. -/
def pingerProcess : pinger.Process :=
  { p := pingerTestNs, contexts := { next := 1, cancelled := [] }, loops := 0 }

/-- The parent context is cancelled, the loop tries the case of its context, takes a
tick, and tries the case of its context again. -/
def eventsParentCancelled : List pinger.Event :=
  [.cancel 0, .loop .ctxDone, .loop (.ticker 5), .loop .ctxDone]

/-! ## Theorems: ownership-confirmation handler -/

/-- Answer of `Ping` when the namespace has a fixed executor. -/
theorem ping_of_fixed (h : handler.PingHandler) (request : Option PingRequest)
    (e : Executor)
    (hfixed : h.executorsFixed.get (PingRequest.GetNamespace request) = some e) :
    (handler.Ping h request).response
        = some { ExecutorId := handler.getExecutorID e.GetMetadata
                 OwnsShard := (e.GetShardProcess (PingRequest.GetShardKey request)).isNone
                 ShardKey := PingRequest.GetShardKey request }
      ∧ (handler.Ping h request).err = none := by
  simp [handler.Ping, hfixed, handler.checkOwnerShipAndLog]

/-- Answer of `Ping` when the namespace has no fixed executor and an ephemeral one. -/
theorem ping_of_ephemeral (h : handler.PingHandler) (request : Option PingRequest)
    (e : Executor)
    (hfixed : h.executorsFixed.get (PingRequest.GetNamespace request) = none)
    (hephemeral : h.executorsEphemeral.get (PingRequest.GetNamespace request) = some e) :
    (handler.Ping h request).response
        = some { ExecutorId := handler.getExecutorID e.GetMetadata
                 OwnsShard := (e.GetShardProcess (PingRequest.GetShardKey request)).isNone
                 ShardKey := PingRequest.GetShardKey request }
      ∧ (handler.Ping h request).err = none := by
  simp [handler.Ping, hfixed, hephemeral, handler.checkOwnerShipAndLog]

/-- Answer of `Ping` when the namespace has no executor at all. -/
theorem ping_of_unknown (h : handler.PingHandler) (request : Option PingRequest)
    (hfixed : h.executorsFixed.get (PingRequest.GetNamespace request) = none)
    (hephemeral : h.executorsEphemeral.get (PingRequest.GetNamespace request) = none) :
    (handler.Ping h request).response
        = some { ExecutorId := "", OwnsShard := false
                 ShardKey := PingRequest.GetShardKey request }
      ∧ (handler.Ping h request).err = none := by
  simp [handler.Ping, hfixed, hephemeral]

/-- The executor id of a metadata map with a non-empty `grpc_address`. -/
theorem getExecutorID_of_address (metadata : GoMap String) (a : String)
    (haddr : metadata.get "grpc_address" = some a) (hne : a ≠ "") :
    handler.getExecutorID metadata = a := by
  simp [handler.getExecutorID, haddr, hne]

/-- C1: for every registry and every request whose namespace is registered neither as
a fixed nor as an ephemeral executor, `Ping` returns no error and the response with an
empty executor id, `owns_shard = false` and the shard key of the request. -/
theorem ping_unknown_namespace (h : handler.PingHandler) (request : Option PingRequest)
    (hfixed : h.executorsFixed.get (PingRequest.GetNamespace request) = none)
    (hephemeral : h.executorsEphemeral.get (PingRequest.GetNamespace request) = none) :
    (handler.Ping h request).response
        = some { ExecutorId := "", OwnsShard := false
                 ShardKey := PingRequest.GetShardKey request }
      ∧ (handler.Ping h request).err = none :=
  ping_of_unknown h request hfixed hephemeral

/-- Witness of C1: the request `{namespace: "bogus", shard_key: "7"}` against a
registry that knows `ns1` and `ns2` only. -/
theorem ping_unknown_namespace_witness :
    handlerNs1Ns2.executorsFixed.get "bogus" = none
      ∧ handlerNs1Ns2.executorsEphemeral.get "bogus" = none
      ∧ (handler.Ping handlerNs1Ns2 (some ⟨"7", "bogus"⟩)).response
          = some ⟨"", false, "7"⟩
      ∧ (handler.Ping handlerNs1Ns2 (some ⟨"7", "bogus"⟩)).err = none :=
  ⟨rfl, rfl, ping_unknown_namespace handlerNs1Ns2 (some ⟨"7", "bogus"⟩) rfl rfl⟩

/-- Counterexample to C2 as stated: `ns1` has a registered ephemeral executor whose
metadata maps `grpc_address` to `127.0.0.1:7955` and whose lookup of `shard-2`
succeeds, yet `Ping` answers `127.0.0.1:7953` and `owns_shard = false`, from the fixed
executor registered under the same namespace. -/
theorem ping_registered_counterexample :
    handlerOverlap.executorsEphemeral.get "ns1" = some execNs1Ephemeral
      ∧ execNs1Ephemeral.GetMetadata.get "grpc_address" = some "127.0.0.1:7955"
      ∧ execNs1Ephemeral.GetShardProcess "shard-2" = none
      ∧ (handler.Ping handlerOverlap (some ⟨"shard-2", "ns1"⟩)).response
          = some ⟨"127.0.0.1:7953", false, "shard-2"⟩
      ∧ (handler.Ping handlerOverlap (some ⟨"shard-2", "ns1"⟩)).response
          ≠ some ⟨"127.0.0.1:7955", true, "shard-2"⟩ :=
  ⟨rfl, by decide, by decide, by decide, by decide⟩

/-- C2, amended: for every request whose namespace resolves to a registered executor
(the fixed executor of the namespace, or its ephemeral executor when it has no fixed
one) whose metadata maps `grpc_address` to a non-empty address `a`, `Ping` returns no
error and the response with executor id `a`, the shard key of the request, and
`owns_shard` true exactly when that executor's `GetShardProcess` lookup of the shard
key returns no error. -/
theorem ping_registered (h : handler.PingHandler) (request : Option PingRequest)
    (e : Executor) (a : String)
    (hreg : h.executorsFixed.get (PingRequest.GetNamespace request) = some e
      ∨ (h.executorsFixed.get (PingRequest.GetNamespace request) = none
          ∧ h.executorsEphemeral.get (PingRequest.GetNamespace request) = some e))
    (haddr : e.GetMetadata.get "grpc_address" = some a) (hne : a ≠ "") :
    ∃ b : Bool,
      (handler.Ping h request).response
          = some { ExecutorId := a, OwnsShard := b
                   ShardKey := PingRequest.GetShardKey request }
        ∧ (handler.Ping h request).err = none
        ∧ (b = true ↔ e.GetShardProcess (PingRequest.GetShardKey request) = none) := by
  refine ⟨(e.GetShardProcess (PingRequest.GetShardKey request)).isNone, ?_, ?_, ?_⟩
  · rcases hreg with hf | ⟨hf, he⟩
    · rw [(ping_of_fixed h request e hf).1, getExecutorID_of_address _ a haddr hne]
    · rw [(ping_of_ephemeral h request e hf he).1, getExecutorID_of_address _ a haddr hne]
  · rcases hreg with hf | ⟨hf, he⟩
    · exact (ping_of_fixed h request e hf).2
    · exact (ping_of_ephemeral h request e hf he).2
  · exact Option.isNone_iff_eq_none

/-- Witness of C2: the request of the handler test for `shard-1` of `ns1`, which the
fixed executor at `127.0.0.1:7953` has a processor for. -/
theorem ping_registered_witness :
    handlerNs1Ns2.executorsFixed.get "ns1" = some execNs1
      ∧ execNs1.GetMetadata.get "grpc_address" = some "127.0.0.1:7953"
      ∧ execNs1.GetShardProcess "shard-1" = none
      ∧ ∃ b : Bool,
          (handler.Ping handlerNs1Ns2 (some ⟨"shard-1", "ns1"⟩)).response
              = some ⟨"127.0.0.1:7953", b, "shard-1"⟩
            ∧ (handler.Ping handlerNs1Ns2 (some ⟨"shard-1", "ns1"⟩)).err = none
            ∧ (b = true ↔ execNs1.GetShardProcess "shard-1" = none) :=
  ⟨rfl, by decide, by decide,
    ping_registered handlerNs1Ns2 (some ⟨"shard-1", "ns1"⟩) execNs1 "127.0.0.1:7953"
      (Or.inl rfl) (by decide) (by decide)⟩

/-- The error returned by `Ping` is nil. -/
theorem ping_total_err (h : handler.PingHandler) (request : Option PingRequest) :
    (handler.Ping h request).err = none := by
  unfold handler.Ping
  simp only []
  split
  · rfl
  · split <;> rfl

/-- C3: for every registry and every request, the shard key of the response of `Ping`
is the shard key of the request. -/
theorem ping_echoes_shard_key (h : handler.PingHandler) (request : Option PingRequest) :
    ∃ response : PingResponse,
      (handler.Ping h request).response = some response
        ∧ response.ShardKey = PingRequest.GetShardKey request := by
  cases hf : h.executorsFixed.get (PingRequest.GetNamespace request) with
  | some e => exact ⟨_, (ping_of_fixed h request e hf).1, rfl⟩
  | none =>
    cases he : h.executorsEphemeral.get (PingRequest.GetNamespace request) with
    | some e => exact ⟨_, (ping_of_ephemeral h request e hf he).1, rfl⟩
    | none => exact ⟨_, (ping_of_unknown h request hf he).1, rfl⟩

/-- C4: `Ping` is total. For every registry and every request it returns a non-nil
response and a nil error; when the local shard lookup of the executor that answers
returns an error, the response has `owns_shard = false` and the error is not
returned. -/
theorem ping_total (h : handler.PingHandler) (request : Option PingRequest) :
    (handler.Ping h request).err = none
      ∧ ∃ response : PingResponse,
          (handler.Ping h request).response = some response
            ∧ ∀ (e : Executor) (lookupErr : GoError),
                (h.executorsFixed.get (PingRequest.GetNamespace request) = some e
                  ∨ (h.executorsFixed.get (PingRequest.GetNamespace request) = none
                      ∧ h.executorsEphemeral.get (PingRequest.GetNamespace request)
                          = some e)) →
                e.GetShardProcess (PingRequest.GetShardKey request) = some lookupErr →
                response.OwnsShard = false := by
  cases hf : h.executorsFixed.get (PingRequest.GetNamespace request) with
  | some e0 =>
    refine ⟨(ping_of_fixed h request e0 hf).2, _, (ping_of_fixed h request e0 hf).1, ?_⟩
    intro e lookupErr hreg hlookup
    rcases hreg with h1 | ⟨h1, _⟩
    · obtain rfl : e0 = e := Option.some.inj h1
      simp [hlookup]
    · exact absurd h1 (by simp)
  | none =>
    cases he : h.executorsEphemeral.get (PingRequest.GetNamespace request) with
    | some e0 =>
      refine ⟨(ping_of_ephemeral h request e0 hf he).2, _,
        (ping_of_ephemeral h request e0 hf he).1, ?_⟩
      intro e lookupErr hreg hlookup
      rcases hreg with h1 | ⟨_, h2⟩
      · exact absurd h1 (by simp)
      · obtain rfl : e0 = e := Option.some.inj h2
        simp [hlookup]
    | none =>
      refine ⟨(ping_of_unknown h request hf he).2, _,
        (ping_of_unknown h request hf he).1, ?_⟩
      intro e lookupErr _ _
      rfl

/-- Witness of C4: the lookup of `shard-2` by the executor of `ns1` fails with
`not found`; the answer is a response with `owns_shard = false` and a nil error. -/
theorem ping_total_witness :
    execNs1.GetShardProcess "shard-2" = some ⟨"not found"⟩
      ∧ (handler.Ping handlerNs1Ns2 (some ⟨"shard-2", "ns1"⟩)).err = none
      ∧ (handler.Ping handlerNs1Ns2 (some ⟨"shard-2", "ns1"⟩)).response
          = some ⟨"127.0.0.1:7953", false, "shard-2"⟩ :=
  ⟨by decide, (ping_total handlerNs1Ns2 (some ⟨"shard-2", "ns1"⟩)).1, by decide⟩

/-- Counterexample to C5 as stated: `ns3` has a registered executor, whose metadata
has no `grpc_address` entry, and the executor id of the response is empty. -/
theorem ping_executor_id_counterexample :
    (handlerNoAddress.executorsFixed.get "ns3").isSome = true
      ∧ (handler.Ping handlerNoAddress (some ⟨"shard-1", "ns3"⟩)).response
          = some ⟨"", true, "shard-1"⟩ :=
  ⟨by decide, by decide⟩

/-- The executor id read from a metadata map is empty exactly when the map has no
`grpc_address` entry or an empty one. -/
theorem getExecutorID_eq_empty_iff (metadata : GoMap String) :
    handler.getExecutorID metadata = ""
      ↔ (metadata.get "grpc_address" = none ∨ metadata.get "grpc_address" = some "") := by
  unfold handler.getExecutorID
  cases hget : metadata.get "grpc_address" with
  | none => simp
  | some addr =>
    by_cases hempty : addr = ""
    · simp [hempty]
    · simp [hempty]

/-- C5, amended: the executor id of the response of `Ping` is empty exactly when no
executor address could be identified for the namespace of the request, that is when
the namespace has no registered executor, or when the executor that answers (the fixed
executor of the namespace, or its ephemeral executor when it has no fixed one) has no
`grpc_address` metadata entry or an empty one. -/
theorem ping_executor_id_empty_iff (h : handler.PingHandler)
    (request : Option PingRequest) :
    ∃ response : PingResponse,
      (handler.Ping h request).response = some response
        ∧ (response.ExecutorId = ""
            ↔ ((h.executorsFixed.get (PingRequest.GetNamespace request) = none
                  ∧ h.executorsEphemeral.get (PingRequest.GetNamespace request) = none)
                ∨ ∃ e : Executor,
                    (h.executorsFixed.get (PingRequest.GetNamespace request) = some e
                      ∨ (h.executorsFixed.get (PingRequest.GetNamespace request) = none
                          ∧ h.executorsEphemeral.get (PingRequest.GetNamespace request)
                              = some e))
                    ∧ (e.GetMetadata.get "grpc_address" = none
                        ∨ e.GetMetadata.get "grpc_address" = some ""))) := by
  cases hf : h.executorsFixed.get (PingRequest.GetNamespace request) with
  | some e0 =>
    refine ⟨_, (ping_of_fixed h request e0 hf).1, ?_⟩
    simp [getExecutorID_eq_empty_iff]
  | none =>
    cases he : h.executorsEphemeral.get (PingRequest.GetNamespace request) with
    | some e0 =>
      refine ⟨_, (ping_of_ephemeral h request e0 hf he).1, ?_⟩
      simp [getExecutorID_eq_empty_iff]
    | none =>
      refine ⟨_, (ping_of_unknown h request hf he).1, ?_⟩
      simp

/-- The registries after a call of `Ping` are the registries before it. -/
theorem ping_keeps_registries (h : handler.PingHandler) (request : Option PingRequest) :
    (handler.Ping h request).handler.executorsFixed = h.executorsFixed
      ∧ (handler.Ping h request).handler.executorsEphemeral = h.executorsEphemeral := by
  unfold handler.Ping
  simp only []
  split
  · exact ⟨rfl, rfl⟩
  · split
    · exact ⟨rfl, rfl⟩
    · exact ⟨rfl, rfl⟩

/-- C6: `Ping` is a function of the request and of the executor registry only. Two
handlers that hold the same registries give the same response and error to the same
request, whatever has been logged, and `Ping` leaves the registries as they are, so a
second invocation meets the state of the first. -/
theorem ping_function_of_state (h1 h2 : handler.PingHandler)
    (request : Option PingRequest)
    (hfixed : h1.executorsFixed = h2.executorsFixed)
    (hephemeral : h1.executorsEphemeral = h2.executorsEphemeral) :
    (handler.Ping h1 request).response = (handler.Ping h2 request).response
      ∧ (handler.Ping h1 request).err = (handler.Ping h2 request).err
      ∧ (handler.Ping h1 request).handler.executorsFixed = h1.executorsFixed
      ∧ (handler.Ping h1 request).handler.executorsEphemeral = h1.executorsEphemeral := by
  refine ⟨?_, ?_, (ping_keeps_registries h1 request).1, (ping_keeps_registries h1 request).2⟩
  · cases hf : h1.executorsFixed.get (PingRequest.GetNamespace request) with
    | some e0 =>
      rw [(ping_of_fixed h1 request e0 hf).1, (ping_of_fixed h2 request e0 (hfixed ▸ hf)).1]
    | none =>
      cases he : h1.executorsEphemeral.get (PingRequest.GetNamespace request) with
      | some e0 =>
        rw [(ping_of_ephemeral h1 request e0 hf he).1,
          (ping_of_ephemeral h2 request e0 (hfixed ▸ hf) (hephemeral ▸ he)).1]
      | none =>
        rw [(ping_of_unknown h1 request hf he).1,
          (ping_of_unknown h2 request (hfixed ▸ hf) (hephemeral ▸ he)).1]
  · rw [(ping_total_err h1 request), (ping_total_err h2 request)]

/-- Witness of C6: the same request sent twice in a row to one handler. The second
invocation runs on the handler left by the first, which has two more log entries and
the same registries, and returns the same response and error. -/
theorem ping_function_of_state_witness :
    (handler.Ping handlerNs1Ns2 (some ⟨"shard-1", "ns1"⟩)).handler.logger.length = 2
      ∧ (handler.Ping handlerNs1Ns2 (some ⟨"shard-1", "ns1"⟩)).response
          = (handler.Ping (handler.Ping handlerNs1Ns2 (some ⟨"shard-1", "ns1"⟩)).handler
              (some ⟨"shard-1", "ns1"⟩)).response
      ∧ (handler.Ping handlerNs1Ns2 (some ⟨"shard-1", "ns1"⟩)).err
          = (handler.Ping (handler.Ping handlerNs1Ns2 (some ⟨"shard-1", "ns1"⟩)).handler
              (some ⟨"shard-1", "ns1"⟩)).err :=
  ⟨by decide,
    (ping_function_of_state handlerNs1Ns2
      (handler.Ping handlerNs1Ns2 (some ⟨"shard-1", "ns1"⟩)).handler
      (some ⟨"shard-1", "ns1"⟩) rfl rfl).1,
    (ping_function_of_state handlerNs1Ns2
      (handler.Ping handlerNs1Ns2 (some ⟨"shard-1", "ns1"⟩)).handler
      (some ⟨"shard-1", "ns1"⟩) rfl rfl).2.1⟩

/-! ## Theorems: the probe, the prober and the shard creator -/

/-- The canary client after `PingShard`: it has received one more call, whose request
carries the namespace and the shard key. -/
theorem pingShard_client_calls (NamespaceHeader : String) (c : CanaryClient)
    (logger : Logger) (namespace_ shardKey : String) :
    (pinger.PingShard NamespaceHeader c logger namespace_ shardKey).1.calls
      = c.calls ++ [⟨some ⟨shardKey, namespace_⟩,
          [CallOption.WithShardKey shardKey,
           CallOption.WithHeader NamespaceHeader namespace_]⟩] := by
  unfold pinger.PingShard
  simp only [CanaryClient.Ping]
  split
  · rfl
  · split <;> rfl

/-- C7: for every outcome `(response, err)` of the confirmation RPC, `PingShard`
returns and adds exactly one entry to the log, which names the namespace and the shard
key: an error-level `Failed to ping shard` when `err` is not nil, a warning-level
`Executor does not own shard` when `err` is nil and `owns_shard` is false (a nil
response counts as false), an info-level `Successfully pinged shard owner` when `err`
is nil and `owns_shard` is true. -/
theorem pingShard_records_one_outcome (NamespaceHeader : String) (c : CanaryClient)
    (logger : Logger) (namespace_ shardKey : String)
    (response : Option PingResponse) (err : Option GoError)
    (hanswer : c.respond c.calls ⟨some ⟨shardKey, namespace_⟩,
        [CallOption.WithShardKey shardKey,
         CallOption.WithHeader NamespaceHeader namespace_]⟩ = (response, err)) :
    ∃ entry : LogEntry,
      (pinger.PingShard NamespaceHeader c logger namespace_ shardKey).2 = logger ++ [entry]
        ∧ zapString "namespace" namespace_ ∈ entry.fields
        ∧ zapString "shard_key" shardKey ∈ entry.fields
        ∧ ((err ≠ none ∧ entry.level = Level.error ∧ entry.msg = "Failed to ping shard")
            ∨ (err = none ∧ PingResponse.GetOwnsShard response = false
                ∧ entry.level = Level.warn ∧ entry.msg = "Executor does not own shard")
            ∨ (err = none ∧ PingResponse.GetOwnsShard response = true
                ∧ entry.level = Level.info
                ∧ entry.msg = "Successfully pinged shard owner")) := by
  unfold pinger.PingShard
  simp only [CanaryClient.Ping, hanswer]
  cases err with
  | some e =>
    exact ⟨⟨Level.error, "Failed to ping shard",
        [zapString "namespace" namespace_, zapString "shard_key" shardKey, zapError e]⟩,
      rfl, by simp, by simp, Or.inl ⟨by simp, rfl, rfl⟩⟩
  | none =>
    cases howns : PingResponse.GetOwnsShard response with
    | false =>
      exact ⟨⟨Level.warn, "Executor does not own shard",
          [zapString "namespace" namespace_, zapString "shard_key" shardKey,
           zapString "executor_id" (PingResponse.GetExecutorId response)]⟩,
        by simp [Logger.Warn], by simp, by simp, Or.inr (Or.inl ⟨rfl, rfl, rfl, rfl⟩)⟩
    | true =>
      exact ⟨⟨Level.info, "Successfully pinged shard owner",
          [zapString "namespace" namespace_, zapString "shard_key" shardKey,
           zapString "executor_id" (PingResponse.GetExecutorId response)]⟩,
        by simp [Logger.Info], by simp, by simp, Or.inr (Or.inr ⟨rfl, rfl, rfl, rfl⟩)⟩

/-- Witness of C7: a client that answers with a nil response and a nil error; the
probe of shard `7` of `test-ns` adds one entry to an empty log. -/
theorem pingShard_records_one_outcome_witness :
    clientNilAnswer.respond clientNilAnswer.calls ⟨some ⟨"7", "test-ns"⟩,
        [CallOption.WithShardKey "7", CallOption.WithHeader "hdr" "test-ns"]⟩
        = (none, none)
      ∧ ∃ entry : LogEntry,
          (pinger.PingShard "hdr" clientNilAnswer [] "test-ns" "7").2 = [] ++ [entry]
            ∧ zapString "namespace" "test-ns" ∈ entry.fields
            ∧ zapString "shard_key" "7" ∈ entry.fields
            ∧ (((none : Option GoError) ≠ none ∧ entry.level = Level.error
                  ∧ entry.msg = "Failed to ping shard")
                ∨ ((none : Option GoError) = none
                    ∧ PingResponse.GetOwnsShard none = false
                    ∧ entry.level = Level.warn
                    ∧ entry.msg = "Executor does not own shard")
                ∨ ((none : Option GoError) = none
                    ∧ PingResponse.GetOwnsShard none = true
                    ∧ entry.level = Level.info
                    ∧ entry.msg = "Successfully pinged shard owner")) :=
  ⟨rfl, pingShard_records_one_outcome "hdr" clientNilAnswer [] "test-ns" "7" none none rfl⟩

/-- C8: the confirmation RPC is not retried. For every namespace, shard key and
behaviour of the client, the calls received by the canary client after `PingShard`
are the calls received before it followed by exactly one call, whose request carries
that namespace and that shard key. -/
theorem pingShard_calls_client_once (NamespaceHeader : String) (c : CanaryClient)
    (logger : Logger) (namespace_ shardKey : String) :
    ∃ call : PingCall,
      (pinger.PingShard NamespaceHeader c logger namespace_ shardKey).1.calls
          = c.calls ++ [call]
        ∧ call.request = some { ShardKey := shardKey, Namespace := namespace_ } :=
  ⟨_, pingShard_client_calls NamespaceHeader c logger namespace_ shardKey, rfl⟩

/-- The text of a non-negative `int` is the text of the natural number it is. -/
theorem sprintf_d_of_nonneg (i : Int) (hi : 0 ≤ i) :
    pinger.Sprintf_d i = toString i.toNat := by
  cases i with
  | ofNat m => rfl
  | negSucc m => exact absurd hi (by simp)

/-- Counterexample to C9 as stated: the pinger that `NewPinger` makes for ten shards
has a nil context, and `pingRandomShard` on it panics in `context.WithTimeout` before
any probe instead of performing one. -/
theorem pingRandomShard_probes_once_counterexample :
    (1 : Int) ≤ pingerTestNs.numShards
      ∧ pingerTestNs.ctx = none
      ∧ pinger.pingRandomShard "hdr" pingerTestNs 7
          = .error "cannot create context from nil parent"
      ∧ ¬ ∃ after : pinger.Pinger,
          pinger.pingRandomShard "hdr" pingerTestNs 7 = .ok after := by
  have hpanic : pinger.pingRandomShard "hdr" pingerTestNs 7
      = .error "cannot create context from nil parent" := by
    simp [pinger.pingRandomShard, pinger.Intn, pingerTestNs, pinger.NewPinger]
  refine ⟨by decide, rfl, hpanic, ?_⟩
  rintro ⟨after, hok⟩
  rw [hpanic] at hok
  cases hok

/-- C9, amended: for every pinger with `numShards >= 1` whose context is set and every
value of the random draw, `pingRandomShard` returns without a panic after exactly one
probe: the canary client has received one more call, whose namespace is the namespace
of the pinger and whose shard key is the decimal text of the number `n` that
`rand.Intn` returns for the draw, with `0 <= n < numShards`; with a pool of size one
the key is `0`. -/
theorem pingRandomShard_probes_once (NamespaceHeader : String) (p : pinger.Pinger)
    (draw : Nat) (ctx : Context) (hpool : 1 ≤ p.numShards) (hctx : p.ctx = some ctx) :
    ∃ (after : pinger.Pinger) (n : Nat),
      pinger.pingRandomShard NamespaceHeader p draw = .ok after
        ∧ pinger.Intn draw p.numShards = .ok (n : Int)
        ∧ (n : Int) < p.numShards
        ∧ after.canaryClient.calls
            = p.canaryClient.calls ++ [⟨some ⟨toString n, p.namespace_⟩,
                [CallOption.WithShardKey (toString n),
                 CallOption.WithHeader NamespaceHeader p.namespace_]⟩]
        ∧ (p.numShards = 1 → toString n = "0") := by
  have hpos : 0 < p.numShards := by omega
  have hnotle : ¬ p.numShards ≤ 0 := by omega
  have hlo : 0 ≤ (draw : Int) % p.numShards := Int.emod_nonneg _ (by omega)
  have hhi : (draw : Int) % p.numShards < p.numShards := Int.emod_lt_of_pos _ hpos
  refine ⟨{ p with
      canaryClient := (pinger.PingShard NamespaceHeader p.canaryClient p.logger
        p.namespace_ (pinger.Sprintf_d ((draw : Int) % p.numShards))).1
      logger := (pinger.PingShard NamespaceHeader p.canaryClient p.logger
        p.namespace_ (pinger.Sprintf_d ((draw : Int) % p.numShards))).2 },
    ((draw : Int) % p.numShards).toNat, ?_, ?_, ?_, ?_, ?_⟩
  · simp only [pinger.pingRandomShard, pinger.Intn, hnotle, if_false, hctx]
  · simp only [pinger.Intn, hnotle, if_false, Int.toNat_of_nonneg hlo]
  · rw [Int.toNat_of_nonneg hlo]
    exact hhi
  · simp only []
    rw [pingShard_client_calls, sprintf_d_of_nonneg _ hlo]
  · intro hone
    have hzero : ((draw : Int) % p.numShards).toNat = 0 := by
      rw [hone]
      simp
    rw [hzero]
    rfl

/-- Witness of C9: the pinger of the test, with ten shards and its context set by
hand as the test does, and the draw `7`. -/
theorem pingRandomShard_probes_once_witness :
    (1 : Int) ≤ pingerTestNsWithContext.numShards
      ∧ pingerTestNsWithContext.ctx = some Context.Background
      ∧ ∃ (after : pinger.Pinger) (n : Nat),
          pinger.pingRandomShard "hdr" pingerTestNsWithContext 7 = .ok after
            ∧ pinger.Intn 7 pingerTestNsWithContext.numShards = .ok (n : Int)
            ∧ (n : Int) < pingerTestNsWithContext.numShards
            ∧ after.canaryClient.calls
                = pingerTestNsWithContext.canaryClient.calls
                  ++ [⟨some ⟨toString n, pingerTestNsWithContext.namespace_⟩,
                    [CallOption.WithShardKey (toString n),
                     CallOption.WithHeader "hdr" pingerTestNsWithContext.namespace_]⟩]
            ∧ (pingerTestNsWithContext.numShards = 1 → toString n = "0") :=
  ⟨by decide, rfl,
    pingRandomShard_probes_once "hdr" pingerTestNsWithContext 7 Context.Background
      (by decide) rfl⟩

/-- The text of a UUID is not empty. -/
theorem uuid_string_ne_empty (u : UUID) : u.String ≠ "" := by
  intro hempty
  have hdata := congrArg String.data hempty
  simp [UUID.String, UUID.hex] at hdata

/-- The loop over the namespaces still to visit: the calls received by the canary
client, the number of draws and the draws themselves afterwards. -/
theorem processNamespaces_spec (NamespaceHeader : String) (l : List String) :
    ∀ (s : processorephemeral.ShardCreator) (src : UUIDSource),
      (processorephemeral.processNamespaces NamespaceHeader s src l).1.canaryClient.calls
          = s.canaryClient.calls ++ (l.enumFrom src.used).map (fun x =>
              (⟨some ⟨(src.draws x.1).String, x.2⟩,
                [CallOption.WithShardKey (src.draws x.1).String,
                 CallOption.WithHeader NamespaceHeader x.2]⟩ : PingCall))
        ∧ (processorephemeral.processNamespaces NamespaceHeader s src l).2.used
            = src.used + l.length
        ∧ (processorephemeral.processNamespaces NamespaceHeader s src l).2.draws
            = src.draws := by
  induction l with
  | nil =>
    intro s src
    simp [processorephemeral.processNamespaces]
  | cons namespace_ rest ih =>
    intro s src
    simp only [processorephemeral.processNamespaces]
    obtain ⟨hcalls, hused, hdraws⟩ := ih
      { s with
        canaryClient := (pinger.PingShard NamespaceHeader s.canaryClient
          (s.logger.Info "Creating shard"
            [zapString "shardKey" src.New.1.String, zapString "namespace" namespace_])
          namespace_ src.New.1.String).1
        logger := (pinger.PingShard NamespaceHeader s.canaryClient
          (s.logger.Info "Creating shard"
            [zapString "shardKey" src.New.1.String, zapString "namespace" namespace_])
          namespace_ src.New.1.String).2 }
      src.New.2
    refine ⟨?_, ?_, ?_⟩
    · rw [hcalls]
      simp only [pingShard_client_calls, UUIDSource.New, List.enumFrom_cons, List.map_cons,
        List.append_assoc, List.singleton_append]
    · rw [hused]
      simp only [UUIDSource.New, List.length_cons]
      omega
    · rw [hdraws]
      rfl

/-- C10: on a tick of the shard creator, for every list of configured namespaces and
every behaviour of the canary client, the client receives exactly one more call per
configured namespace, in list order; the call for the namespace at position `i` carries
that namespace and, as shard key, the text of draw number `used + i` of the UUID
source, a draw made for this call alone; every such key is non-empty; and the tick
makes as many draws as there are namespaces. -/
theorem processTick_probes_every_namespace (NamespaceHeader : String)
    (s : processorephemeral.ShardCreator) (src : UUIDSource) :
    (processorephemeral.processTick NamespaceHeader s src).1.canaryClient.calls
        = s.canaryClient.calls ++ (s.namespaces.enumFrom src.used).map (fun x =>
            (⟨some ⟨(src.draws x.1).String, x.2⟩,
              [CallOption.WithShardKey (src.draws x.1).String,
               CallOption.WithHeader NamespaceHeader x.2]⟩ : PingCall))
      ∧ (∀ i : Nat, (src.draws i).String ≠ "")
      ∧ (processorephemeral.processTick NamespaceHeader s src).2.used
          = src.used + s.namespaces.length :=
  ⟨(processNamespaces_spec NamespaceHeader s.namespaces s src).1,
    fun i => uuid_string_ne_empty (src.draws i),
    (processNamespaces_spec NamespaceHeader s.namespaces s src).2.1⟩

/-- Witness of C10: a tick over the namespaces `a` and `b` with a client that fails
its first call. The probe of `a` is logged as failed, and `b` is probed all the same:
the client has received two calls, for `a` and then for `b`. -/
theorem processTick_probes_every_namespace_witness :
    (processorephemeral.processTick "hdr" creatorTwoNamespaces sourceCounting).1.canaryClient.calls
        = [⟨some ⟨"00000000-0000-0000-0000-000000000000", "a"⟩,
            [CallOption.WithShardKey "00000000-0000-0000-0000-000000000000",
             CallOption.WithHeader "hdr" "a"]⟩,
           ⟨some ⟨"01010101-0101-0101-0101-010101010101", "b"⟩,
            [CallOption.WithShardKey "01010101-0101-0101-0101-010101010101",
             CallOption.WithHeader "hdr" "b"]⟩]
      ∧ (processorephemeral.processTick "hdr" creatorTwoNamespaces sourceCounting).1.logger.map
          (fun entry => entry.msg)
        = ["Creating shard", "Failed to ping shard", "Creating shard",
           "Successfully pinged shard owner"] :=
  ⟨(processTick_probes_every_namespace "hdr" creatorTwoNamespaces sourceCounting).1.trans
      (by decide),
    by decide⟩

/-! ## Theorems: the ownership resolvers -/

/-- The start loop over bindings that all start: no error, every namespace started. -/
theorem startFrom_all_ok (pre : List (String × spectatorclient.Spectator))
    (hpre : ∀ x ∈ pre, x.2.Start = none) (started : List String) :
    spectatorclient.Spectators.startFrom pre started
      = (none, started ++ pre.map Prod.fst) := by
  induction pre generalizing started with
  | nil => simp [spectatorclient.Spectators.startFrom]
  | cons x rest ih =>
    obtain ⟨namespace_, spectator⟩ := x
    have hx : spectator.Start = none := hpre (namespace_, spectator) (by simp)
    simp only [spectatorclient.Spectators.startFrom, hx]
    rw [ih (fun y hy => hpre y (List.mem_cons_of_mem _ hy))]
    simp

/-- The start loop stops at the first binding whose spectator fails to start. -/
theorem startFrom_first_failure (pre post : List (String × spectatorclient.Spectator))
    (namespace_ : String) (spectator : spectatorclient.Spectator) (err : GoError)
    (hpre : ∀ x ∈ pre, x.2.Start = none) (hfail : spectator.Start = some err)
    (started : List String) :
    spectatorclient.Spectators.startFrom (pre ++ (namespace_, spectator) :: post) started
      = (some ⟨"start spectator for namespace " ++ namespace_ ++ ": " ++ err.msg⟩,
          started ++ pre.map Prod.fst ++ [namespace_]) := by
  induction pre generalizing started with
  | nil => simp [spectatorclient.Spectators.startFrom, hfail]
  | cons x rest ih =>
    obtain ⟨k, v⟩ := x
    have hx : v.Start = none := hpre (k, v) (by simp)
    have hrest := ih (fun y hy => hpre y (List.mem_cons_of_mem _ hy)) (started ++ [k])
    simp only [List.cons_append, spectatorclient.Spectators.startFrom, hx]
    simpa using hrest

/-- Counterexample to C11 as stated: the spectator of `a` fails to start, `b` is
another namespace of the set, and in the run that visits `a` first `Start` returns an
error naming `a` without having called `Start` on the spectator of `b`. -/
theorem spectators_start_counterexample :
    spectatorFailing.Start = some ⟨"boom"⟩
      ∧ (spectatorsAB.spectators.get "b").isSome = true
      ∧ spectatorsAB.Start
          = (some ⟨"start spectator for namespace a: boom"⟩, ["a"])
      ∧ "b" ∉ spectatorsAB.Start.2 :=
  ⟨rfl, by decide, by decide, by decide⟩

/-- C11, amended: `Spectators.Start` stops at the first resolver that fails to start.
When the visit of the set meets, after resolvers that all start, the resolver of a
namespace whose `Start` returns an error, `Spectators.Start` returns an error whose
message names that namespace and carries the cause, and the resolvers whose `Start` has
been called are those visited up to and including the failing one: the resolvers later
in the visit are not started. -/
theorem spectators_start_stops_at_first_failure (s : spectatorclient.Spectators)
    (pre post : List (String × spectatorclient.Spectator))
    (namespace_ : String) (spectator : spectatorclient.Spectator) (err : GoError)
    (hvisit : s.spectators.range = pre ++ (namespace_, spectator) :: post)
    (hpre : ∀ x ∈ pre, x.2.Start = none) (hfail : spectator.Start = some err) :
    s.Start
      = (some ⟨"start spectator for namespace " ++ namespace_ ++ ": " ++ err.msg⟩,
          pre.map Prod.fst ++ [namespace_]) := by
  unfold spectatorclient.Spectators.Start
  rw [hvisit, startFrom_first_failure pre post namespace_ spectator err hpre hfail]
  simp

/-- Witness of C11: the set of `a` and `b`, visited in this order; `a` fails. -/
theorem spectators_start_stops_at_first_failure_witness :
    spectatorsAB.spectators.range = [] ++ ("a", spectatorFailing) :: [("b", spectatorHealthy)]
      ∧ spectatorFailing.Start = some ⟨"boom"⟩
      ∧ spectatorsAB.Start
          = (some ⟨"start spectator for namespace " ++ "a" ++ ": " ++ "boom"⟩,
              ([] : List (String × spectatorclient.Spectator)).map Prod.fst ++ ["a"]) :=
  ⟨rfl, rfl,
    spectators_start_stops_at_first_failure spectatorsAB [] [("b", spectatorHealthy)]
      "a" spectatorFailing ⟨"boom"⟩ rfl (by simp) rfl⟩

/-- C13: for every yarpc client and every non-nil metrics scope,
`createShardDistributorClient` returns the client retry(metrics(timeout(raw))): the
raw transport client innermost, wrapped by the timeout layer with the default timeout,
then by the metrics layer with the scope, then by the retry layer with the service
retry policy and the transient-error classifier, outermost. This holds whatever the
four constructors do, and the returned error is nil for every scope, nil or not. -/
theorem createShardDistributorClient_layers (L : spectatorclient.ClientLayers)
    (yarpcClient : L.YarpcClient) (scope : L.Scope) (anyScope : Option L.Scope) :
    (spectatorclient.createShardDistributorClient L yarpcClient (some scope)).1
        = L.retryableNewShardDistributorClient
            (L.NewMeteredShardDistributorClient
              (L.timeoutNewShardDistributorClient
                (L.grpcNewShardDistributorClient yarpcClient)
                L.ShardDistributorDefaultTimeout)
              scope)
            L.CreateShardDistributorServiceRetryPolicy L.IsServiceTransientError
      ∧ (spectatorclient.createShardDistributorClient L yarpcClient anyScope).2 = none := by
  constructor
  · simp only [spectatorclient.createShardDistributorClient]
  · cases anyScope <;> rfl

/-- Witness of C13: with the layers read as terms, the client built for the yarpc
client `yarpc` and the scope `scope` is the term retry(metered(timeout(raw))). -/
theorem createShardDistributorClient_layers_witness :
    (spectatorclient.createShardDistributorClient layersAsTerms "yarpc" (some "scope")).1
        = LayerTerm.retry
            (LayerTerm.metered (LayerTerm.timeout (LayerTerm.raw "yarpc") 10) "scope")
            "policy" "transient"
      ∧ (spectatorclient.createShardDistributorClient layersAsTerms "yarpc" none).2 = none :=
  createShardDistributorClient_layers layersAsTerms "yarpc" "scope" none

/-- C16: when a namespace is registered both as a fixed and as an ephemeral executor,
`Ping` answers from the fixed executor: the executor id and `owns_shard` of the
response are those of the fixed executor's metadata and lookup, and the answer and the
log are the same whatever the ephemeral registry holds, so the ephemeral executor of
the namespace has no part in them. -/
theorem ping_overlap_answers_from_fixed (h : handler.PingHandler)
    (request : Option PingRequest) (fixed ephemeral : Executor)
    (hfixed : h.executorsFixed.get (PingRequest.GetNamespace request) = some fixed)
    (_hephemeral :
      h.executorsEphemeral.get (PingRequest.GetNamespace request) = some ephemeral) :
    (handler.Ping h request).response
        = some { ExecutorId := handler.getExecutorID fixed.GetMetadata
                 OwnsShard := (fixed.GetShardProcess (PingRequest.GetShardKey request)).isNone
                 ShardKey := PingRequest.GetShardKey request }
      ∧ (handler.Ping h request).err = none
      ∧ ∀ other : GoMap Executor,
          (handler.Ping { h with executorsEphemeral := other } request).response
              = (handler.Ping h request).response
            ∧ (handler.Ping { h with executorsEphemeral := other } request).err
                = (handler.Ping h request).err
            ∧ (handler.Ping { h with executorsEphemeral := other } request).handler.logger
                = (handler.Ping h request).handler.logger := by
  refine ⟨(ping_of_fixed h request fixed hfixed).1, (ping_of_fixed h request fixed hfixed).2, ?_⟩
  intro other
  simp [handler.Ping, hfixed, handler.checkOwnerShipAndLog]

/-- Witness of C16: `ns1` is registered as the fixed executor at `127.0.0.1:7953`,
which has no processor for `shard-2`, and as an ephemeral executor at `127.0.0.1:7955`,
which has one. -/
theorem ping_overlap_answers_from_fixed_witness :
    handlerOverlap.executorsFixed.get "ns1" = some execNs1
      ∧ handlerOverlap.executorsEphemeral.get "ns1" = some execNs1Ephemeral
      ∧ (handler.Ping handlerOverlap (some ⟨"shard-2", "ns1"⟩)).response
          = some ⟨"127.0.0.1:7953", false, "shard-2"⟩ :=
  ⟨rfl, rfl,
    (ping_overlap_answers_from_fixed handlerOverlap (some ⟨"shard-2", "ns1"⟩)
      execNs1 execNs1Ephemeral rfl rfl).1.trans (by decide)⟩

/-- Counterexample to C17 as stated: a pinger made by `NewPinger` with one shard has
`numShards >= 1`, and `pingRandomShard` on it panics all the same, in
`context.WithTimeout` on its nil context. -/
theorem pingRandomShard_panics_counterexample :
    (1 : Int)
        ≤ (pinger.NewPinger { Logger := [], CanaryClient := clientNilAnswer }
            "test-ns" 1).numShards
      ∧ pinger.pingRandomShard "hdr"
          (pinger.NewPinger { Logger := [], CanaryClient := clientNilAnswer } "test-ns" 1) 0
        = .error "cannot create context from nil parent" :=
  ⟨by decide, by simp [pinger.pingRandomShard, pinger.Intn, pinger.NewPinger]⟩

/-- C17, amended: `NewPinger` stores `numShards` as given, whatever its value, and
leaves the context nil. For every pinger `pingRandomShard` panics exactly when
`numShards <= 0` or the context is nil: with `numShards <= 0` the panic is that of
`rand.Intn`, with `numShards >= 1` and a nil context it is that of
`context.WithTimeout`, both before the probe; and for every pinger with
`numShards >= 1` whose context is set the call returns without a panic. -/
theorem pingRandomShard_panics_iff_empty_pool_or_nil_ctx (NamespaceHeader : String)
    (params : pinger.Params) (namespace_ : String) (numShards : Int)
    (p : pinger.Pinger) (draw : Nat) :
    (pinger.NewPinger params namespace_ numShards).numShards = numShards
      ∧ (pinger.NewPinger params namespace_ numShards).ctx = none
      ∧ ((∃ msg : String, pinger.pingRandomShard NamespaceHeader p draw = .error msg)
          ↔ (p.numShards ≤ 0 ∨ p.ctx = none))
      ∧ (p.numShards ≤ 0 →
          pinger.Intn draw p.numShards = .error "invalid argument to Intn"
            ∧ pinger.pingRandomShard NamespaceHeader p draw
                = .error "invalid argument to Intn")
      ∧ (1 ≤ p.numShards → p.ctx = none →
          pinger.pingRandomShard NamespaceHeader p draw
            = .error "cannot create context from nil parent")
      ∧ (1 ≤ p.numShards → p.ctx ≠ none →
          ∃ after : pinger.Pinger,
            pinger.pingRandomShard NamespaceHeader p draw = .ok after) := by
  refine ⟨rfl, rfl, ?_, ?_, ?_, ?_⟩
  · by_cases hle : p.numShards ≤ 0
    · simp [pinger.pingRandomShard, pinger.Intn, hle]
    · cases hctx : p.ctx with
      | none => simp [pinger.pingRandomShard, pinger.Intn, hle, hctx]
      | some ctx => simp [pinger.pingRandomShard, pinger.Intn, hle, hctx]
  · intro hle
    simp [pinger.pingRandomShard, pinger.Intn, hle]
  · intro hpos hctx
    have hle : ¬ p.numShards ≤ 0 := by omega
    simp [pinger.pingRandomShard, pinger.Intn, hle, hctx]
  · intro hpos hctx
    have hle : ¬ p.numShards ≤ 0 := by omega
    cases hc : p.ctx with
    | none => exact absurd hc hctx
    | some ctx => simp [pinger.pingRandomShard, pinger.Intn, hle, hc]

/-- Witness of C17: a pinger over an empty pool whose context is set panics in
`rand.Intn`, and the pinger of the test, with ten shards and its context set, does
not panic. -/
theorem pingRandomShard_panics_iff_empty_pool_or_nil_ctx_witness :
    pingerEmptyPool.numShards ≤ 0
      ∧ pinger.pingRandomShard "hdr" pingerEmptyPool 7 = .error "invalid argument to Intn"
      ∧ (1 : Int) ≤ pingerTestNsWithContext.numShards
      ∧ pingerTestNsWithContext.ctx ≠ none
      ∧ ∃ after : pinger.Pinger,
          pinger.pingRandomShard "hdr" pingerTestNsWithContext 7 = .ok after :=
  ⟨by decide,
    ((pingRandomShard_panics_iff_empty_pool_or_nil_ctx "hdr"
      { Logger := [], CanaryClient := clientNilAnswer } "test-ns" 0
      pingerEmptyPool 7).2.2.2.1 (by decide)).2,
    by decide,
    by simp [pingerTestNsWithContext],
    (pingRandomShard_panics_iff_empty_pool_or_nil_ctx "hdr"
      { Logger := [], CanaryClient := clientNilAnswer } "test-ns" 0
      pingerTestNsWithContext 7).2.2.2.2.2 (by decide) (by simp [pingerTestNsWithContext])⟩

/-- A key is bound in a map exactly when a read of the key finds a value. -/
theorem lookup_isSome_iff_mem_keys {V : Type} (k : String) (l : List (String × V)) :
    (l.lookup k).isSome = true ↔ k ∈ l.map Prod.fst := by
  induction l with
  | nil => simp
  | cons x rest ih =>
    obtain ⟨k2, v⟩ := x
    by_cases hk : k = k2
    · subst hk
      simp [List.lookup]
    · have hne : (k == k2) = false := by simpa using hk
      simp [List.lookup, hne, ih, hk]

/-- C18: `Spectators.ForNamespace` is an exact-match lookup. For every set and every
name: when the name is a key of the set it returns the resolver stored for the name and
a nil error; otherwise it returns a nil resolver and the error `spectator not found
for namespace` followed by the name; and the error is nil exactly when the name is a
key. -/
theorem forNamespace_exact_match (s : spectatorclient.Spectators) (namespace_ : String) :
    ((s.ForNamespace namespace_).2 = none
        ↔ namespace_ ∈ s.spectators.entries.map Prod.fst)
      ∧ (∀ spectator : spectatorclient.Spectator,
          s.spectators.get namespace_ = some spectator →
          s.ForNamespace namespace_ = (some spectator, none))
      ∧ (namespace_ ∉ s.spectators.entries.map Prod.fst →
          s.ForNamespace namespace_
            = (none, some ⟨"spectator not found for namespace " ++ namespace_⟩)) := by
  have hkeys := lookup_isSome_iff_mem_keys namespace_ s.spectators.entries
  refine ⟨?_, ?_, ?_⟩
  · rw [← hkeys]
    unfold spectatorclient.Spectators.ForNamespace GoMap.get
    cases s.spectators.entries.lookup namespace_ <;> simp
  · intro spectator hget
    simp [spectatorclient.Spectators.ForNamespace, hget]
  · intro hnot
    rw [← hkeys] at hnot
    unfold spectatorclient.Spectators.ForNamespace GoMap.get
    cases hl : s.spectators.entries.lookup namespace_ with
    | none => rfl
    | some v => simp [hl] at hnot

/-- Witness of C18: in the set of `a` and `b`, the name `b` gives its resolver and the
name `c` gives the error that names `c`. -/
theorem forNamespace_exact_match_witness :
    spectatorsAB.spectators.get "b" = some spectatorHealthy
      ∧ spectatorsAB.ForNamespace "b" = (some spectatorHealthy, none)
      ∧ "c" ∉ spectatorsAB.spectators.entries.map Prod.fst
      ∧ spectatorsAB.ForNamespace "c"
          = (none, some ⟨"spectator not found for namespace " ++ "c"⟩) :=
  ⟨rfl,
    (forNamespace_exact_match spectatorsAB "b").2.1 spectatorHealthy rfl,
    by decide,
    (forNamespace_exact_match spectatorsAB "c").2.2 (by decide)⟩

/-! ## Theorems: start and stop -/

/-- With a pool of at least one shard and a context that is set `pingRandomShard`
returns the pinger with a new client and log and all its other fields as they were. -/
theorem pingRandomShard_ok (NamespaceHeader : String) (p : pinger.Pinger) (draw : Nat)
    (ctx : Context) (hpool : 1 ≤ p.numShards) (hctx : p.ctx = some ctx) :
    ∃ (c : CanaryClient) (l : Logger),
      pinger.pingRandomShard NamespaceHeader p draw
        = .ok { p with canaryClient := c, logger := l } := by
  have hle : ¬ p.numShards ≤ 0 := by omega
  refine ⟨(pinger.PingShard NamespaceHeader p.canaryClient p.logger p.namespace_
      (pinger.Sprintf_d ((draw : Int) % p.numShards))).1,
    (pinger.PingShard NamespaceHeader p.canaryClient p.logger p.namespace_
      (pinger.Sprintf_d ((draw : Int) % p.numShards))).2, ?_⟩
  simp only [pinger.pingRandomShard, pinger.Intn, hle, if_false, hctx]

/-- One pass of the ping loop in a started pinger whose wait group counts its
goroutines: it does not panic, it leaves the contexts, the context and cancel function
of the pinger and the pool as they are, the wait group still counts the goroutines, no
goroutine is added, and none exits while the context of the pinger is not done. -/
theorem pingLoopStep_spec (NamespaceHeader : String) (proc : pinger.Process)
    (c : pinger.SelectCase) (own : Context)
    (hctx : proc.p.ctx = some own) (hpool : 1 ≤ proc.p.numShards)
    (hwg : proc.p.wg = proc.loops) :
    ∃ next : pinger.Process,
      pinger.pingLoopStep NamespaceHeader proc c = .ok next
        ∧ next.contexts = proc.contexts
        ∧ next.p.ctx = some own
        ∧ next.p.cancel = proc.p.cancel
        ∧ next.p.numShards = proc.p.numShards
        ∧ next.p.wg = next.loops
        ∧ next.loops ≤ proc.loops
        ∧ (own.isDone proc.contexts = false → next.loops = proc.loops)
        ∧ (c = pinger.SelectCase.ctxDone → own.isDone proc.contexts = true →
            next.loops = proc.loops - 1) := by
  unfold pinger.pingLoopStep
  by_cases hl : proc.loops = 0
  · exact ⟨proc, by simp [hl], rfl, hctx, rfl, rfl, hwg, le_refl _, fun _ => rfl,
      fun _ _ => by omega⟩
  · have hwg0 : ¬ proc.p.wg = 0 := by omega
    simp only [hl, if_false, hctx]
    cases c with
    | ctxDone =>
      by_cases hd : own.isDone proc.contexts = true
      · simp only [hd, if_true, hwg0, if_false]
        exact ⟨_, rfl, rfl, rfl, rfl, rfl, by simp only []; omega, by simp only []; omega,
          fun hnot => by simp at hnot, fun _ _ => rfl⟩
      · simp only [hd]
        exact ⟨proc, by simp, rfl, hctx, rfl, rfl, hwg, le_refl _, fun _ => rfl,
          fun _ hdone => Bool.noConfusion hdone⟩
    | ticker draw =>
      obtain ⟨cl, lg, hok⟩ := pingRandomShard_ok NamespaceHeader proc.p draw own hpool hctx
      simp only [hok]
      exact ⟨_, rfl, rfl, hctx, rfl, rfl, hwg, le_refl _, fun _ => rfl,
        fun hc => by cases hc⟩

/-- The context that `Start` gives to the pinger is done exactly when its own cancel
function has been called, whatever its parent is. -/
theorem isDone_withCancel_withoutCancel (cs : Contexts) (own : Nat) (parent : Context) :
    (Context.WithCancel own (Context.WithoutCancel parent)).isDone cs
      = cs.cancelled.contains own := by
  simp [Context.isDone]

/-- A run of events that never calls the cancel function of the pinger: it does not
panic, no goroutine of the ping loop exits, and the context of the pinger is not
done at its end. -/
theorem run_spec (NamespaceHeader : String) (events : List pinger.Event) :
    ∀ (proc : pinger.Process) (own : Nat) (parent : Context),
      proc.p.ctx = some (Context.WithCancel own (Context.WithoutCancel parent)) →
      proc.p.cancel = some own →
      1 ≤ proc.p.numShards →
      proc.p.wg = proc.loops →
      own ∉ proc.contexts.cancelled →
      (∀ id, pinger.Event.cancel id ∈ events → id ≠ own) →
      ∃ s : pinger.Process,
        pinger.run NamespaceHeader events proc = .ok s
          ∧ s.p.ctx = some (Context.WithCancel own (Context.WithoutCancel parent))
          ∧ s.p.cancel = some own
          ∧ 1 ≤ s.p.numShards
          ∧ s.p.wg = s.loops
          ∧ s.loops = proc.loops
          ∧ own ∉ s.contexts.cancelled := by
  induction events with
  | nil =>
    intro proc own parent hctx hcancel hpool hwg hown _
    exact ⟨proc, rfl, hctx, hcancel, hpool, hwg, rfl, hown⟩
  | cons e rest ih =>
    intro proc own parent hctx hcancel hpool hwg hown hevents
    have hrest : ∀ id, pinger.Event.cancel id ∈ rest → id ≠ own :=
      fun id hid => hevents id (List.mem_cons_of_mem _ hid)
    cases e with
    | cancel id =>
      have hid : id ≠ own := hevents id (List.mem_cons_self _ _)
      have hown2 : own ∉ (proc.contexts.cancel id).cancelled := by
        simp only [Contexts.cancel, List.mem_cons, not_or]
        exact ⟨fun h => hid h.symm, hown⟩
      obtain ⟨s, hs, h1, h2, h3, h4, h5, h6⟩ :=
        ih { proc with contexts := proc.contexts.cancel id } own parent hctx hcancel hpool
          hwg hown2 hrest
      exact ⟨s, by simpa only [pinger.run] using hs, h1, h2, h3, h4, h5, h6⟩
    | loop c =>
      obtain ⟨next, hstep, hcs, hnctx, hncancel, hnpool, hnwg, _, hsame, _⟩ :=
        pingLoopStep_spec NamespaceHeader proc c _ hctx hpool hwg
      have hnotdone :
          (Context.WithCancel own (Context.WithoutCancel parent)).isDone proc.contexts
            = false := by
        rw [isDone_withCancel_withoutCancel]
        simpa using hown
      obtain ⟨s, hs, h1, h2, h3, h4, h5, h6⟩ :=
        ih next own parent hnctx (hncancel.trans hcancel) (hnpool ▸ hpool) hnwg
          (hcs ▸ hown) hrest
      refine ⟨s, ?_, h1, h2, h3, h4, h5.trans (hsame hnotdone), h6⟩
      simp only [pinger.run, hstep]
      exact hs

/-- The wait of `Stop` against any schedule, in a started pinger whose wait group
counts its goroutines: it ends returned or blocked, it returns only with no goroutine
of the loop left, and the contexts and the context of the pinger are as before. -/
theorem wait_spec (NamespaceHeader : String) (schedule : List pinger.SelectCase) :
    ∀ (proc : pinger.Process) (own : Context),
      proc.p.ctx = some own →
      1 ≤ proc.p.numShards →
      proc.p.wg = proc.loops →
      ∃ st : pinger.Process,
        ((pinger.Wait NamespaceHeader schedule proc = .returned st ∧ st.loops = 0)
            ∨ pinger.Wait NamespaceHeader schedule proc = .blocked st)
          ∧ st.p.wg = st.loops
          ∧ st.contexts = proc.contexts
          ∧ st.p.ctx = some own := by
  induction schedule with
  | nil =>
    intro proc own hctx _ hwg
    by_cases h0 : proc.p.wg = 0
    · exact ⟨proc, Or.inl ⟨by simp [pinger.Wait, h0], by omega⟩, hwg, rfl, hctx⟩
    · exact ⟨proc, Or.inr (by simp [pinger.Wait, h0]), hwg, rfl, hctx⟩
  | cons c rest ih =>
    intro proc own hctx hpool hwg
    by_cases h0 : proc.p.wg = 0
    · exact ⟨proc, Or.inl ⟨by simp [pinger.Wait, h0], by omega⟩, hwg, rfl, hctx⟩
    · obtain ⟨next, hstep, hcs, hnctx, _, hnpool, hnwg, _, _, _⟩ :=
        pingLoopStep_spec NamespaceHeader proc c own hctx hpool hwg
      obtain ⟨st, hst, h1, h2, h3⟩ := ih next own hnctx (hnpool ▸ hpool) hnwg
      refine ⟨st, ?_, h1, h2.trans hcs, h3⟩
      simpa only [pinger.Wait, h0, if_false, hstep] using hst

/-- The wait of `Stop` returns once the one goroutine of the loop takes the case of
the done context, whatever ticks come before. -/
theorem wait_returns (NamespaceHeader : String) (draws : List Nat) :
    ∀ (proc : pinger.Process) (own : Context) (rest : List pinger.SelectCase),
      proc.p.ctx = some own →
      1 ≤ proc.p.numShards →
      proc.p.wg = proc.loops →
      proc.loops ≤ 1 →
      own.isDone proc.contexts = true →
      ∃ out : pinger.Process,
        pinger.Wait NamespaceHeader
            (draws.map pinger.SelectCase.ticker ++ pinger.SelectCase.ctxDone :: rest) proc
          = .returned out
          ∧ out.loops = 0 ∧ out.p.wg = 0 := by
  induction draws with
  | nil =>
    intro proc own rest hctx hpool hwg hone hdone
    by_cases h0 : proc.p.wg = 0
    · exact ⟨proc, by simp [pinger.Wait, h0], by omega, h0⟩
    · obtain ⟨next, hstep, _, _, _, _, hnwg, _, _, hexit⟩ :=
        pingLoopStep_spec NamespaceHeader proc pinger.SelectCase.ctxDone own hctx hpool hwg
      have hl : next.loops = 0 := by
        have := hexit rfl hdone
        omega
      have hw : next.p.wg = 0 := by omega
      refine ⟨next, ?_, hl, hw⟩
      simp only [List.map_nil, List.nil_append, pinger.Wait, h0, if_false, hstep]
      cases rest <;> simp [pinger.Wait, hw]
  | cons d ds ih =>
    intro proc own rest hctx hpool hwg hone hdone
    by_cases h0 : proc.p.wg = 0
    · exact ⟨proc, by simp [pinger.Wait, h0], by omega, h0⟩
    · obtain ⟨next, hstep, hcs, hnctx, _, hnpool, hnwg, hle, _, _⟩ :=
        pingLoopStep_spec NamespaceHeader proc (pinger.SelectCase.ticker d) own hctx hpool
          hwg
      obtain ⟨out, hout, h1, h2⟩ :=
        ih next own rest hnctx (hnpool ▸ hpool) hnwg (by omega) (hcs ▸ hdone)
      refine ⟨out, ?_, h1, h2⟩
      simpa only [List.map_cons, List.cons_append, pinger.Wait, h0, if_false, hstep]
        using hout

/-- The state right after `Start` on a pinger that has no loop running. -/
theorem start_spec (proc : pinger.Process) (ctx : Context)
    (hwg : proc.p.wg = 0) (hloops : proc.loops = 0)
    (hfresh : ∀ id ∈ proc.contexts.cancelled, id < proc.contexts.next) :
    (pinger.Start proc ctx).p.ctx
        = some (Context.WithCancel proc.contexts.next (Context.WithoutCancel ctx))
      ∧ (pinger.Start proc ctx).p.cancel = some proc.contexts.next
      ∧ (pinger.Start proc ctx).p.numShards = proc.p.numShards
      ∧ (pinger.Start proc ctx).p.wg = (pinger.Start proc ctx).loops
      ∧ (pinger.Start proc ctx).loops = 1
      ∧ proc.contexts.next ∉ (pinger.Start proc ctx).contexts.cancelled := by
  refine ⟨rfl, rfl, rfl, ?_, ?_, ?_⟩
  · simp [pinger.Start, hwg, hloops]
  · simp [pinger.Start, hloops]
  · intro hmem
    exact absurd (hfresh _ hmem) (lt_irrefl _)

/-- C14: the task of the prober is independent of the context passed to `Start`.
After `Start(ctx)` on a pinger with no loop running, whatever cancel functions of
`ctx` and of its ancestors are called and whatever cases the loop takes meanwhile, the
loop is still running and its own context is not done; and after `Stop`, whether it
has returned yet or is still waiting, that context is done. -/
theorem pinger_context_done_only_by_stop (NamespaceHeader : String)
    (proc : pinger.Process) (ctx : Context) (events : List pinger.Event)
    (hwg : proc.p.wg = 0) (hloops : proc.loops = 0) (hpool : 1 ≤ proc.p.numShards)
    (hfresh : ∀ id ∈ proc.contexts.cancelled, id < proc.contexts.next)
    (hparent : ∀ id ∈ ctx.ids, id < proc.contexts.next)
    (hevents : ∀ id, pinger.Event.cancel id ∈ events → id ∈ ctx.ids) :
    ∃ (s : pinger.Process) (own : Context),
      pinger.run NamespaceHeader events (pinger.Start proc ctx) = .ok s
        ∧ s.p.ctx = some own
        ∧ s.loops = 1
        ∧ own.isDone s.contexts = false
        ∧ ∀ schedule : List pinger.SelectCase,
            ∃ st : pinger.Process,
              (pinger.Stop NamespaceHeader s schedule = .returned st
                  ∨ pinger.Stop NamespaceHeader s schedule = .blocked st)
                ∧ st.p.ctx = some own
                ∧ own.isDone st.contexts = true := by
  obtain ⟨h1, h2, h3, h4, h5, h6⟩ := start_spec proc ctx hwg hloops hfresh
  have hne : ∀ id, pinger.Event.cancel id ∈ events → id ≠ proc.contexts.next :=
    fun id hid => Nat.ne_of_lt (hparent id (hevents id hid))
  obtain ⟨s, hrun, hctx, hcancel, hspool, hswg, hsloops, hsown⟩ :=
    run_spec NamespaceHeader events (pinger.Start proc ctx) proc.contexts.next ctx
      h1 h2 (h3 ▸ hpool) h4 h6 hne
  refine ⟨s, _, hrun, hctx, hsloops.trans h5, ?_, ?_⟩
  · rw [isDone_withCancel_withoutCancel]
    simpa using hsown
  · intro schedule
    obtain ⟨st, hst, _, hcs, hstctx⟩ :=
      wait_spec NamespaceHeader schedule
        { s with contexts := s.contexts.cancel proc.contexts.next } _ hctx hspool hswg
    refine ⟨st, ?_, hstctx, ?_⟩
    · simp only [pinger.Stop, hcancel]
      rcases hst with ⟨hret, _⟩ | hblk
      · exact Or.inl hret
      · exact Or.inr hblk
    · rw [hcs, isDone_withCancel_withoutCancel]
      simp [Contexts.cancel]

/-- Witness of C14: the pinger of the test is started under a parent context that is
then cancelled; the loop tries the case of its context, ticks, and tries again. -/
theorem pinger_context_done_only_by_stop_witness :
    (1 : Int) ≤ pingerProcess.p.numShards
      ∧ ∃ (s : pinger.Process) (own : Context),
          pinger.run "hdr" eventsParentCancelled (pinger.Start pingerProcess parentContext)
              = .ok s
            ∧ s.p.ctx = some own
            ∧ s.loops = 1
            ∧ own.isDone s.contexts = false
            ∧ ∀ schedule : List pinger.SelectCase,
                ∃ st : pinger.Process,
                  (pinger.Stop "hdr" s schedule = .returned st
                      ∨ pinger.Stop "hdr" s schedule = .blocked st)
                    ∧ st.p.ctx = some own
                    ∧ own.isDone st.contexts = true :=
  ⟨by decide,
    pinger_context_done_only_by_stop "hdr" pingerProcess parentContext eventsParentCancelled
      rfl rfl (by decide) (by decide) (by decide)
      (by
        intro id hid
        simp [eventsParentCancelled] at hid
        subst hid
        decide)⟩

/-- C15: for a pinger that has been started, `Stop` returns only after the ping loop
has exited. After `Start` on a pinger with no loop running and any events before the
stop, `Stop` against any schedule returns only in a state with no goroutine of the
loop left and a wait group at zero, and it does return once the loop takes the case of
its context, which `Stop` has made ready, whatever ticks the loop takes first. -/
theorem pinger_stop_waits_for_loop (NamespaceHeader : String)
    (proc : pinger.Process) (ctx : Context) (events : List pinger.Event)
    (hwg : proc.p.wg = 0) (hloops : proc.loops = 0) (hpool : 1 ≤ proc.p.numShards)
    (hfresh : ∀ id ∈ proc.contexts.cancelled, id < proc.contexts.next)
    (hparent : ∀ id ∈ ctx.ids, id < proc.contexts.next)
    (hevents : ∀ id, pinger.Event.cancel id ∈ events → id ∈ ctx.ids) :
    ∃ s : pinger.Process,
      pinger.run NamespaceHeader events (pinger.Start proc ctx) = .ok s
        ∧ s.loops = 1
        ∧ (∀ (schedule : List pinger.SelectCase) (out : pinger.Process),
            pinger.Stop NamespaceHeader s schedule = .returned out →
            out.loops = 0 ∧ out.p.wg = 0)
        ∧ (∀ (draws : List Nat) (rest : List pinger.SelectCase),
            ∃ out : pinger.Process,
              pinger.Stop NamespaceHeader s
                  (draws.map pinger.SelectCase.ticker ++ pinger.SelectCase.ctxDone :: rest)
                = .returned out
                ∧ out.loops = 0 ∧ out.p.wg = 0) := by
  obtain ⟨h1, h2, h3, h4, h5, h6⟩ := start_spec proc ctx hwg hloops hfresh
  have hne : ∀ id, pinger.Event.cancel id ∈ events → id ≠ proc.contexts.next :=
    fun id hid => Nat.ne_of_lt (hparent id (hevents id hid))
  obtain ⟨s, hrun, hctx, hcancel, hspool, hswg, hsloops, _⟩ :=
    run_spec NamespaceHeader events (pinger.Start proc ctx) proc.contexts.next ctx
      h1 h2 (h3 ▸ hpool) h4 h6 hne
  refine ⟨s, hrun, hsloops.trans h5, ?_, ?_⟩
  · intro schedule out hout
    obtain ⟨st, hst, hstwg, _, _⟩ :=
      wait_spec NamespaceHeader schedule
        { s with contexts := s.contexts.cancel proc.contexts.next } _ hctx hspool hswg
    simp only [pinger.Stop, hcancel] at hout
    rcases hst with ⟨hret, hzero⟩ | hblk
    · rw [hret] at hout
      cases hout
      exact ⟨hzero, by omega⟩
    · rw [hblk] at hout
      cases hout
  · intro draws rest
    obtain ⟨out, hout, hl, hw⟩ :=
      wait_returns NamespaceHeader draws
        { s with contexts := s.contexts.cancel proc.contexts.next } _ rest hctx hspool hswg
        (by simp only []; omega)
        (by rw [isDone_withCancel_withoutCancel]; simp [Contexts.cancel])
    exact ⟨out, by simpa only [pinger.Stop, hcancel] using hout, hl, hw⟩

/-- Witness of C15: the pinger of the test, started and stopped. -/
theorem pinger_stop_waits_for_loop_witness :
    (1 : Int) ≤ pingerProcess.p.numShards
      ∧ ∃ s : pinger.Process,
          pinger.run "hdr" eventsParentCancelled (pinger.Start pingerProcess parentContext)
              = .ok s
            ∧ s.loops = 1
            ∧ (∀ (schedule : List pinger.SelectCase) (out : pinger.Process),
                pinger.Stop "hdr" s schedule = .returned out →
                out.loops = 0 ∧ out.p.wg = 0)
            ∧ (∀ (draws : List Nat) (rest : List pinger.SelectCase),
                ∃ out : pinger.Process,
                  pinger.Stop "hdr" s
                      (draws.map pinger.SelectCase.ticker
                        ++ pinger.SelectCase.ctxDone :: rest)
                    = .returned out
                    ∧ out.loops = 0 ∧ out.p.wg = 0) :=
  ⟨by decide,
    pinger_stop_waits_for_loop "hdr" pingerProcess parentContext eventsParentCancelled
      rfl rfl (by decide) (by decide) (by decide)
      (by
        intro id hid
        simp [eventsParentCancelled] at hid
        subst hid
        decide)⟩

/-- A wait on a wait group at zero returns at once, whatever the schedule. -/
theorem pinger_wait_of_zero (NamespaceHeader : String) (schedule : List pinger.SelectCase)
    (proc : pinger.Process) (hwg : proc.p.wg = 0) :
    pinger.Wait NamespaceHeader schedule proc = .returned proc := by
  cases schedule <;> simp [pinger.Wait, hwg]

/-- A pinger made by `NewPinger`, started, and stopped a first time with the loop
taking the case of its context: the first `Stop` returns, and a second `Stop`
returns as well, against any schedule, with no goroutine of the loop left. -/
theorem pinger_double_stop (NamespaceHeader : String) (params : pinger.Params)
    (namespace_ : String) (numShards : Int) (contexts : Contexts) (ctx : Context)
    (schedule : List pinger.SelectCase) :
    ∃ stopped again : pinger.Process,
      pinger.Stop NamespaceHeader
          (pinger.Start
            { p := pinger.NewPinger params namespace_ numShards, contexts := contexts,
              loops := 0 } ctx)
          [pinger.SelectCase.ctxDone]
        = .returned stopped
        ∧ pinger.Stop NamespaceHeader stopped schedule = .returned again
        ∧ again.loops = 0 := by
  let started := pinger.Start
    { p := pinger.NewPinger params namespace_ numShards, contexts := contexts, loops := 0 }
    ctx
  let stopped : pinger.Process :=
    { p := { started.p with
               logger := started.p.logger.Info "Pinger context done, stopping" []
               wg := 0 }
      contexts := started.contexts.cancel contexts.next
      loops := 0 }
  refine ⟨stopped, { stopped with contexts := stopped.contexts.cancel contexts.next },
    ?_, ?_, rfl⟩
  · simp [stopped, started, pinger.Stop, pinger.Start, pinger.NewPinger, pinger.Wait,
      pinger.pingLoopStep, Contexts.WithCancel, Contexts.cancel, Context.isDone]
  · exact pinger_wait_of_zero NamespaceHeader schedule _ rfl

/-- A shard creator made by `NewShardCreator`, started, and stopped a first time with
the loop taking the case of the stop channel: the first `Stop` returns, and a second
`Stop` panics on the close of the closed channel, against any schedule. -/
theorem shardCreator_double_stop (NamespaceHeader : String)
    (params : processorephemeral.ShardCreatorParams) (namespaces : List String)
    (uuids : UUIDSource) (schedule : List processorephemeral.SelectCase) :
    ∃ stopped : processorephemeral.Process,
      processorephemeral.Stop NamespaceHeader
          (processorephemeral.Start
            { s := processorephemeral.NewShardCreator params namespaces, uuids := uuids,
              loops := 0 })
          [processorephemeral.SelectCase.stopChan]
        = .returned stopped
        ∧ processorephemeral.Stop NamespaceHeader stopped schedule
            = .panicked "close of closed channel" := by
  let started := processorephemeral.Start
    { s := processorephemeral.NewShardCreator params namespaces, uuids := uuids, loops := 0 }
  let stopped : processorephemeral.Process :=
    { s := { started.s with
               stopChanClosed := true
               goRoutineWg := 0
               logger := started.s.logger.Info "Shard creator stopped" [] }
      uuids := uuids
      loops := 0 }
  refine ⟨stopped, ?_, ?_⟩
  · simp [stopped, started, processorephemeral.Stop, processorephemeral.Start,
      processorephemeral.NewShardCreator, processorephemeral.Wait,
      processorephemeral.processStep]
  · simp [stopped, processorephemeral.Stop]

/-- C12, as the code behaves: a second `Stop` on a started and stopped instance
returns for the pinger and panics for the shard creator. For every pinger made by
`NewPinger`, started and stopped, a second `Stop` returns against any schedule; for
every shard creator made by `NewShardCreator`, started and stopped, a second `Stop`
panics with `close of closed channel`. -/
theorem double_stop_pinger_returns_shardCreator_panics (NamespaceHeader : String)
    (pingerParams : pinger.Params) (namespace_ : String) (numShards : Int)
    (contexts : Contexts) (ctx : Context) (pingerSchedule : List pinger.SelectCase)
    (creatorParams : processorephemeral.ShardCreatorParams) (namespaces : List String)
    (uuids : UUIDSource) (creatorSchedule : List processorephemeral.SelectCase) :
    (∃ stopped again : pinger.Process,
      pinger.Stop NamespaceHeader
          (pinger.Start
            { p := pinger.NewPinger pingerParams namespace_ numShards
              contexts := contexts, loops := 0 } ctx)
          [pinger.SelectCase.ctxDone]
        = .returned stopped
        ∧ pinger.Stop NamespaceHeader stopped pingerSchedule = .returned again
        ∧ again.loops = 0)
      ∧ ∃ stopped : processorephemeral.Process,
          processorephemeral.Stop NamespaceHeader
              (processorephemeral.Start
                { s := processorephemeral.NewShardCreator creatorParams namespaces
                  uuids := uuids, loops := 0 })
              [processorephemeral.SelectCase.stopChan]
            = .returned stopped
            ∧ processorephemeral.Stop NamespaceHeader stopped creatorSchedule
                = .panicked "close of closed channel" :=
  ⟨pinger_double_stop NamespaceHeader pingerParams namespace_ numShards contexts ctx
      pingerSchedule,
    shardCreator_double_stop NamespaceHeader creatorParams namespaces uuids
      creatorSchedule⟩

end Canary
